import Mathlib

/-! TVM calculator (`src/script.js`): embedding and verified properties.

The script keeps its state in script-level variables (`displayValue`,
`firstOperand`, `waitingForSecondOperand`, `operator`, `tvm`, `is2ndActive`,
`isComputing`) and mutates them from key handlers.  Here every handler is a
function from state to state.

Numbers.  A JavaScript number is modelled by `JSNum K`: a finite value of an
ordered field `K`, `+Infinity`, `-Infinity` or `NaN`.  The arithmetic follows the
IEEE rules for the special values (`x / 0`, `Infinity - Infinity`, NaN
propagation, `NaN <= 0` false, ...).  Three things are idealised: finite results
are exact (no rounding), finite results never overflow, and zero carries no sign
(a division by zero takes the sign of the dividend).  The definitions are generic
in `K`, so they run over the rationals; the theorems "under real arithmetic"
take `K = ℝ` with `Real.rpow`, `Real.log` and `Real.sqrt`.

Platform functions.  `Math.pow`, `Math.log`, `Math.sqrt` on finite arguments in
their real domain, and the conversions `String(x)`, `parseFloat` and `ToNumber`
are not code of the script.  They are parameters (`MathFns`, `Host`); a theorem
that needs a fact about one of them states it as a hypothesis.
-/

namespace Calc

/-! ## Numbers -/

/-- An idealised JavaScript number. -/
inductive JSNum (K : Type) where
  | fin (x : K)
  | pinf
  | ninf
  | nan
  deriving DecidableEq

variable {K : Type}

/-- Unary minus. -/
def JSNum.neg [LinearOrderedField K] : JSNum K → JSNum K
  | .fin x => .fin (-x)
  | .pinf => .ninf
  | .ninf => .pinf
  | .nan => .nan

/-- The infinity whose sign is that of the nonzero finite value `x`. -/
def JSNum.infLike [LinearOrderedField K] (x : K) : JSNum K :=
  if 0 < x then .pinf else .ninf

/-- Operator `+` on numbers. -/
def JSNum.add [LinearOrderedField K] (a b : JSNum K) : JSNum K :=
  match a with
  | .nan => .nan
  | .fin x =>
    match b with
    | .fin y => .fin (x + y)
    | .pinf => .pinf
    | .ninf => .ninf
    | .nan => .nan
  | .pinf =>
    match b with
    | .fin _ => .pinf
    | .pinf => .pinf
    | .ninf => .nan
    | .nan => .nan
  | .ninf =>
    match b with
    | .fin _ => .ninf
    | .pinf => .nan
    | .ninf => .ninf
    | .nan => .nan

/-- Operator `-` on numbers. -/
def JSNum.sub [LinearOrderedField K] (a b : JSNum K) : JSNum K :=
  a.add b.neg

/-- Operator `*` on numbers. -/
def JSNum.mul [LinearOrderedField K] (a b : JSNum K) : JSNum K :=
  match a with
  | .nan => .nan
  | .fin x =>
    match b with
    | .fin y => .fin (x * y)
    | .pinf => if x = 0 then .nan else JSNum.infLike x
    | .ninf => if x = 0 then .nan else JSNum.infLike (-x)
    | .nan => .nan
  | .pinf =>
    match b with
    | .fin y => if y = 0 then .nan else JSNum.infLike y
    | .pinf => .pinf
    | .ninf => .ninf
    | .nan => .nan
  | .ninf =>
    match b with
    | .fin y => if y = 0 then .nan else JSNum.infLike (-y)
    | .pinf => .ninf
    | .ninf => .pinf
    | .nan => .nan

/-- Operator `/` on numbers. -/
def JSNum.div [LinearOrderedField K] (a b : JSNum K) : JSNum K :=
  match a with
  | .nan => .nan
  | .fin x =>
    match b with
    | .fin y =>
      if y = 0 then (if x = 0 then .nan else JSNum.infLike x) else .fin (x / y)
    | .pinf => .fin 0
    | .ninf => .fin 0
    | .nan => .nan
  | .pinf =>
    match b with
    | .fin y => if 0 ≤ y then .pinf else .ninf
    | .pinf => .nan
    | .ninf => .nan
    | .nan => .nan
  | .ninf =>
    match b with
    | .fin y => if 0 ≤ y then .ninf else .pinf
    | .pinf => .nan
    | .ninf => .nan
    | .nan => .nan

instance [LinearOrderedField K] : Neg (JSNum K) := ⟨JSNum.neg⟩

instance [LinearOrderedField K] : Add (JSNum K) := ⟨JSNum.add⟩

instance [LinearOrderedField K] : Sub (JSNum K) := ⟨JSNum.sub⟩

instance [LinearOrderedField K] : Mul (JSNum K) := ⟨JSNum.mul⟩

instance [LinearOrderedField K] : Div (JSNum K) := ⟨JSNum.div⟩

/-- Strict equality `===` on numbers: `NaN` equals nothing. -/
def JSNum.seq [LinearOrderedField K] (a b : JSNum K) : Bool :=
  match a, b with
  | .fin x, .fin y => decide (x = y)
  | .pinf, .pinf => true
  | .ninf, .ninf => true
  | _, _ => false

/-- Operator `<` on numbers: false as soon as one side is `NaN`. -/
def JSNum.lt [LinearOrderedField K] (a b : JSNum K) : Bool :=
  match a, b with
  | .nan, _ => false
  | _, .nan => false
  | .fin x, .fin y => decide (x < y)
  | .fin _, .pinf => true
  | .fin _, .ninf => false
  | .pinf, _ => false
  | .ninf, .ninf => false
  | .ninf, _ => true

/-- Operator `<=` on numbers: false as soon as one side is `NaN`. -/
def JSNum.le [LinearOrderedField K] (a b : JSNum K) : Bool :=
  a.lt b || a.seq b

/-- Global `isNaN` on a number. -/
def isNaN : JSNum K → Bool
  | .nan => true
  | _ => false

/-- Global `isFinite` on a number. -/
def isFinite : JSNum K → Bool
  | .fin _ => true
  | _ => false

/-! ## Platform functions -/

/-- The real parts of the `Math` library: `rpow x y` is the power for a positive
base, `ln` the natural logarithm of a positive argument, `sqrt` the square root of
a nonnegative argument. -/
structure MathFns (K : Type) where
  rpow : K → K → K
  ln : K → K
  sqrt : K → K

/-- The conversions between numbers and text: `render` is `String(x)` for a
finite `x`, `parseFloat` the global of that name, `toNumber` the coercion the
operators `-`, `*`, `/` apply to a string operand. -/
structure Host (K : Type) where
  render : K → String
  parseFloat : String → JSNum K
  toNumber : String → JSNum K

/-- Everything the script takes from the platform. -/
structure Env (K : Type) where
  math : MathFns K
  host : Host K

/-- Whether a finite value is an integer. -/
def isInt [LinearOrderedField K] [FloorRing K] (y : K) : Bool :=
  decide (((⌊y⌋ : Int) : K) = y)

/-- Whether a finite value is an odd integer. -/
def isOddInt [LinearOrderedField K] [FloorRing K] (y : K) : Bool :=
  isInt y && decide (⌊y⌋ % 2 ≠ 0)

/-- The function `Math.pow(b, e)` with its special cases; the zero is unsigned. -/
def Math.pow [LinearOrderedField K] [FloorRing K] (m : MathFns K)
    (b e : JSNum K) : JSNum K :=
  match e with
  | .nan => .nan
  | .fin y =>
    if y = 0 then .fin 1
    else
      match b with
      | .nan => .nan
      | .pinf => if 0 < y then .pinf else .fin 0
      | .ninf => if 0 < y then (if isOddInt y then .ninf else .pinf) else .fin 0
      | .fin x =>
        if x = 0 then (if 0 < y then .fin 0 else .pinf)
        else if 0 < x then .fin (m.rpow x y)
        else if isInt y then .fin (x ^ ⌊y⌋)
        else .nan
  | .pinf =>
    match b with
    | .nan => .nan
    | .fin x => if 1 < |x| then .pinf else if |x| = 1 then .nan else .fin 0
    | .pinf => .pinf
    | .ninf => .pinf
  | .ninf =>
    match b with
    | .nan => .nan
    | .fin x => if 1 < |x| then .fin 0 else if |x| = 1 then .nan else .pinf
    | .pinf => .fin 0
    | .ninf => .fin 0

/-- The function `Math.log`. -/
def Math.log [LinearOrderedField K] (m : MathFns K) : JSNum K → JSNum K
  | .nan => .nan
  | .ninf => .nan
  | .pinf => .pinf
  | .fin x => if x < 0 then .nan else if x = 0 then .ninf else .fin (m.ln x)

/-- The function `Math.sqrt`. -/
def Math.sqrt [LinearOrderedField K] (m : MathFns K) : JSNum K → JSNum K
  | .nan => .nan
  | .ninf => .nan
  | .pinf => .pinf
  | .fin x => if x < 0 then .nan else .fin (m.sqrt x)

/-- The conversion `String(x)` of a number. -/
def numToString (h : Host K) : JSNum K → String
  | .nan => "NaN"
  | .pinf => "Infinity"
  | .ninf => "-Infinity"
  | .fin x => h.render x

/-! ## Values and state -/

/-- The values the variable `firstOperand` can hold: `null`, a number, or a string
(`performCalculation` returns the string `Error` on a division by zero). -/
inductive JSVal (K : Type) where
  | null
  | num (x : JSNum K)
  | str (s : String)
  deriving DecidableEq

/-- The conversion `String(v)`. -/
def valToString (h : Host K) : JSVal K → String
  | .null => "null"
  | .num x => numToString h x
  | .str s => s

/-- The coercion to a number applied by `-`, `*` and `/`. -/
def valToNumber [LinearOrderedField K] (h : Host K) : JSVal K → JSNum K
  | .null => .fin 0
  | .num x => x
  | .str s => h.toNumber s

/-- The object `tvm`: the five registers. -/
structure Tvm (K : Type) where
  n : JSNum K
  iy : JSNum K
  pv : JSNum K
  pmt : JSNum K
  fv : JSNum K

/-- The script-level variables, and the notices shown by `alert`. -/
structure State (K : Type) where
  displayValue : String
  firstOperand : JSVal K
  waitingForSecondOperand : Bool
  operator : Option String
  tvm : Tvm K
  is2ndActive : Bool
  isComputing : Bool
  alerts : List String

/-- The state when the script starts (lines 3-20). -/
def State.init [LinearOrderedField K] : State K where
  displayValue := "0"
  firstOperand := .null
  waitingForSecondOperand := false
  operator := none
  tvm := ⟨.fin 0, .fin 0, .fin 0, .fin 0, .fin 0⟩
  is2ndActive := false
  isComputing := false
  alerts := []

/-- Truthiness of the variable `operator`: neither `null` nor the empty string. -/
def truthy : Option String → Bool
  | none => false
  | some s => s != ""

/-! ## Arithmetic keys -/

/-- Function `handleNumber` (lines 85-95). -/
def handleNumber (numStr : String) (st : State K) : State K :=
  let st1 := if st.isComputing then { st with isComputing := false } else st
  if st1.waitingForSecondOperand then
    { st1 with displayValue := numStr, waitingForSecondOperand := false }
  else
    { st1 with
      displayValue := if st1.displayValue = "0" then numStr else st1.displayValue ++ numStr }

/-- Function `performCalculation` (lines 118-126).  The second operand is always
the number read from the display; the first is whatever `firstOperand` holds, so
`+` concatenates when it is a string. -/
def performCalculation [LinearOrderedField K] (h : Host K) (op : String)
    (first : JSVal K) (second : JSNum K) : JSVal K :=
  match op with
  | "+" =>
    match first with
    | .str s => .str (s ++ numToString h second)
    | v => .num (valToNumber h v + second)
  | "-" => .num (valToNumber h first - second)
  | "*" => .num (valToNumber h first * second)
  | "/" => if second.seq (.fin 0) then .str "Error" else .num (valToNumber h first / second)
  | _ => .num second

/-- Function `handleOperator` (lines 98-116). -/
def handleOperator [LinearOrderedField K] (env : Env K) (nextOperator : String)
    (st : State K) : State K :=
  let inputValue := env.host.parseFloat st.displayValue
  if truthy st.operator && st.waitingForSecondOperand then
    { st with operator := some nextOperator }
  else
    let st1 :=
      if st.firstOperand = .null then
        { st with firstOperand := .num inputValue }
      else
        match st.operator with
        | some op =>
          if truthy (some op) then
            let result := performCalculation env.host op st.firstOperand inputValue
            { st with displayValue := valToString env.host result, firstOperand := result }
          else st
        | none => st
    { st1 with waitingForSecondOperand := true, operator := some nextOperator }

/-- Function `handleEqual` (lines 129-137). -/
def handleEqual [LinearOrderedField K] (env : Env K) (st : State K) : State K :=
  match st.operator with
  | none => st
  | some op =>
    let inputValue := env.host.parseFloat st.displayValue
    let result := performCalculation env.host op st.firstOperand inputValue
    { st with
      displayValue := valToString env.host result
      firstOperand := .null
      operator := none
      waitingForSecondOperand := true }

/-- Function `handleControl` (lines 140-164). -/
def handleControl (action : String) (st : State K) : State K :=
  match action with
  | "ON/C" =>
    { st with
      displayValue := "0"
      firstOperand := .null
      waitingForSecondOperand := false
      operator := none
      is2ndActive := false
      isComputing := false }
  | "2ND" => { st with is2ndActive := !st.is2ndActive }
  | "CPT" => { st with isComputing := true }
  | "ENTER" => { st with waitingForSecondOperand := true }
  | _ => st

/-- Function `handleFunction` (lines 167-172). -/
def handleFunction [LinearOrderedField K] (env : Env K) (func : String)
    (st : State K) : State K :=
  if func = "CHS" then
    { st with
      displayValue :=
        numToString env.host (env.host.parseFloat st.displayValue * .fin (-1)) }
  else st

/-- Function `handleMath` (lines 175-181). -/
def handleMath [LinearOrderedField K] (env : Env K) (func : String)
    (st : State K) : State K :=
  let current := env.host.parseFloat st.displayValue
  if func = "SQRT" then
    { st with
      displayValue :=
        if current.lt (.fin 0) then "Error"
        else numToString env.host (Math.sqrt env.math current)
      waitingForSecondOperand := true }
  else st

/-! ## TVM keys -/

/-- The period rate `r = tvm.iy / 100` (line 216). -/
def rate [LinearOrderedField K] (t : Tvm K) : JSNum K :=
  t.iy / .fin 100

/-- The value of `result` in `case FV` (lines 231-236). -/
def resultFV [LinearOrderedField K] [FloorRing K] (m : MathFns K) (t : Tvm K) : JSNum K :=
  let r := rate t
  if r.seq (.fin 0) then
    -(t.pv + t.pmt * t.n)
  else
    let term := Math.pow m (.fin 1 + r) t.n;
    -(t.pv * term + t.pmt * (term - .fin 1) / r)

/-- The value of `result` in `case PV` (lines 242-248). -/
def resultPV [LinearOrderedField K] [FloorRing K] (m : MathFns K) (t : Tvm K) : JSNum K :=
  let r := rate t
  if r.seq (.fin 0) then
    -(t.fv + t.pmt * t.n)
  else
    let term := Math.pow m (.fin 1 + r) (-t.n)
    let annuityFactor := (.fin 1 - term) / r;
    -(t.fv * term + t.pmt * annuityFactor)

/-- The value of `result` in `case PMT` (lines 254-262). -/
def resultPMT [LinearOrderedField K] [FloorRing K] (m : MathFns K) (t : Tvm K) : JSNum K :=
  let r := rate t
  if r.seq (.fin 0) then
    -(t.pv + t.fv) / t.n
  else
    let term := Math.pow m (.fin 1 + r) (-t.n)
    let annuityFactor := (.fin 1 - term) / r;
    (-t.pv - t.fv * term) / annuityFactor

/-- The value of `result` in `case N` (lines 270-282). -/
def resultN [LinearOrderedField K] (m : MathFns K) (t : Tvm K) : JSNum K :=
  let r := rate t
  if r.seq (.fin 0) then
    -(t.pv + t.fv) / t.pmt
  else
    let numerator := t.pmt - t.fv * r
    let denominator := t.pmt + t.pv * r
    if (numerator / denominator).le (.fin 0) then
      .nan
    else
      Math.log m (numerator / denominator) / Math.log m (.fin 1 + r)

/-- The text of the notice shown for `IY` (line 290). -/
def iyNotice : String :=
  "計算 I/Y 需要複雜迭代算法，此輕量版暫僅支援 PV/FV/PMT/N 的計算。"

/-- The check after the switch (lines 294-298). -/
def showResult (h : Host K) (result : JSNum K) (st : State K) : State K :=
  if isNaN result || !isFinite result then
    { st with displayValue := "Error" }
  else
    { st with displayValue := numToString h result }

/-- Function `calculateTVM` (lines 213-304).  Nothing in the `try` block throws,
so the `catch` clause has no counterpart. -/
def calculateTVM [LinearOrderedField K] [FloorRing K] (env : Env K) (targetKey : String)
    (st : State K) : State K :=
  match targetKey with
  | "FV" =>
    let result := resultFV env.math st.tvm
    showResult env.host result { st with tvm := { st.tvm with fv := result } }
  | "PV" =>
    let result := resultPV env.math st.tvm
    showResult env.host result { st with tvm := { st.tvm with pv := result } }
  | "PMT" =>
    let result := resultPMT env.math st.tvm
    showResult env.host result { st with tvm := { st.tvm with pmt := result } }
  | "N" =>
    let result := resultN env.math st.tvm
    showResult env.host result { st with tvm := { st.tvm with n := result } }
  | "IY" => { st with alerts := st.alerts ++ [iyNotice] }
  | _ => showResult env.host (.fin 0) st

/-- Function `handleTVM` (lines 184-210); the `console.log` of the store branch
changes no variable. -/
def handleTVM [LinearOrderedField K] [FloorRing K] (env : Env K) (key : String)
    (st : State K) : State K :=
  let val := env.host.parseFloat st.displayValue
  if st.isComputing then
    let st1 := calculateTVM env key st
    { st1 with isComputing := false, waitingForSecondOperand := true }
  else
    let tvm :=
      match key with
      | "N" => { st.tvm with n := val }
      | "IY" => { st.tvm with iy := val }
      | "PV" => { st.tvm with pv := val }
      | "PMT" => { st.tvm with pmt := val }
      | "FV" => { st.tvm with fv := val }
      | _ => st.tvm
    { st with tvm := tvm, waitingForSecondOperand := true }

/-- The click listener (lines 49-82), without the repainting of the page. -/
def click [LinearOrderedField K] [FloorRing K] (env : Env K) (type value : String)
    (st : State K) : State K :=
  match type with
  | "number" => handleNumber value st
  | "operator" => handleOperator env value st
  | "calculate" => handleEqual env st
  | "control" => handleControl value st
  | "tvm" => handleTVM env value st
  | "func" => handleFunction env value st
  | "math" => handleMath env value st
  | _ => st

/-- The five TVM keys. -/
inductive Reg where
  | N
  | IY
  | PV
  | PMT
  | FV
  deriving DecidableEq

/-- The `data-value` of a TVM key. -/
def Reg.key : Reg → String
  | .N => "N"
  | .IY => "IY"
  | .PV => "PV"
  | .PMT => "PMT"
  | .FV => "FV"

/-- Reading a register. -/
def Tvm.get (t : Tvm K) : Reg → JSNum K
  | .N => t.n
  | .IY => t.iy
  | .PV => t.pv
  | .PMT => t.pmt
  | .FV => t.fv

/-- The value of the variable `result` when the switch of `calculateTVM` is left
for the key of a register; for `IY` it is still the initial `0`, and never used. -/
def computed [LinearOrderedField K] [FloorRing K] (m : MathFns K) (t : Tvm K) : Reg → JSNum K
  | .N => resultN m t
  | .IY => .fin 0
  | .PV => resultPV m t
  | .PMT => resultPMT m t
  | .FV => resultFV m t

/-! ## A reference host

A concrete `Host`, used to run the handlers on explicit inputs: numbers are
written in plain decimal notation (sign, integer digits, at most 17 fraction
digits) and read back from decimal literals. -/

/-- The character of the decimal digit `d % 10`. -/
def digitChar (d : Nat) : Char :=
  Char.ofNat (48 + d % 10)

/-- The decimal digits of a natural number, most significant first. -/
def natDigits (n : Nat) : List Char :=
  if n = 0 then [digitChar 0] else ((Nat.digits 10 n).map digitChar).reverse

/-- At most `k` decimal digits of a fraction `0 ≤ f < 1`, stopping when it is exhausted. -/
def fracDigits [LinearOrderedField K] [FloorRing K] : Nat → K → List Char
  | 0, _ => []
  | k + 1, f =>
    if f = 0 then []
    else digitChar ⌊f * 10⌋₊ :: fracDigits k (f * 10 - (⌊f * 10⌋₊ : K))

/-- Plain decimal notation of a finite value. -/
def renderDecimal [LinearOrderedField K] [FloorRing K] (x : K) : String :=
  let a := |x|
  let f := a - (⌊a⌋₊ : K)
  String.mk ((if x < 0 then [Char.ofNat 45] else [])
    ++ natDigits ⌊a⌋₊
    ++ (if f = 0 then [] else Char.ofNat 46 :: fracDigits 17 f))

/-- The value of a list of digit characters. -/
def digitsValue (ds : List Char) : Nat :=
  ds.foldl (fun a c => 10 * a + (c.toNat - 48)) 0

/-- The longest decimal literal at the head of the characters (the words
`Infinity`, `digits`, `digits.digits`, `.digits`, each with an optional sign and
the last three with an optional exponent), with what follows it. -/
def scanDecimal [LinearOrderedField K] (cs : List Char) : Option (JSNum K × List Char) :=
  let (negative, body) :=
    match cs with
    | c :: t => if c = Char.ofNat 45 then (true, t) else if c = Char.ofNat 43 then (false, t) else (false, cs)
    | [] => (false, cs)
  if body.take 8 = "Infinity".data then
    some (if negative then .ninf else .pinf, body.drop 8)
  else
    let ip := body.takeWhile Char.isDigit
    let r1 := body.dropWhile Char.isDigit
    let (fp, r2) :=
      match r1 with
      | c :: t =>
        if c = Char.ofNat 46 then (t.takeWhile Char.isDigit, t.dropWhile Char.isDigit)
        else ([], r1)
      | [] => ([], r1)
    if ip = [] ∧ fp = [] then none
    else
      let mant : K := (digitsValue ip : K) + (digitsValue fp : K) / 10 ^ fp.length
      let (ex, r3) : Int × List Char :=
        match r2 with
        | c :: t =>
          if c = Char.ofNat 101 ∨ c = Char.ofNat 69 then
            let (eneg, t1) :=
              match t with
              | d :: u =>
                if d = Char.ofNat 45 then (true, u)
                else if d = Char.ofNat 43 then (false, u) else (false, t)
              | [] => (false, t)
            let ed := t1.takeWhile Char.isDigit
            if ed = [] then (0, r2)
            else ((if eneg then -(digitsValue ed : Int) else (digitsValue ed : Int)),
              t1.dropWhile Char.isDigit)
          else (0, r2)
        | [] => (0, r2)
      let v : K := mant * 10 ^ ex
      some (.fin (if negative then -v else v), r3)

/-- Reference `parseFloat`: skip leading blanks, read the longest decimal literal,
ignore the rest; `NaN` when there is none. -/
def parseDecimal [LinearOrderedField K] (s : String) : JSNum K :=
  match scanDecimal (s.data.dropWhile Char.isWhitespace) with
  | some (v, _) => v
  | none => .nan

/-- Reference `ToNumber` on a string: the whole text, blanks apart, must be a
decimal literal; the empty text is `0`.  Hexadecimal, octal and binary literals
are not read. -/
def stringToNumber [LinearOrderedField K] (s : String) : JSNum K :=
  let cs := s.data.dropWhile Char.isWhitespace
  if cs = [] then .fin 0
  else
    match scanDecimal cs with
    | some (v, rest) => if rest.all Char.isWhitespace then v else .nan
    | none => .nan

/-- The reference host. -/
def refHost [LinearOrderedField K] [FloorRing K] : Host K where
  render := renderDecimal
  parseFloat := parseDecimal
  toNumber := stringToNumber

/-! ## Key sequences and reachable states -/

/-- A sequence of clicks, each given by the `data-type` and `data-value` of its key. -/
def run [LinearOrderedField K] [FloorRing K] (env : Env K) (keys : List (String × String))
    (st : State K) : State K :=
  keys.foldl (fun s k => click env k.1 k.2 s) st

/-- The values of the four operator keys. -/
def isOperatorSymbol (s : String) : Bool :=
  s = "+" || s = "-" || s = "*" || s = "/"

/-- The states reached from the initial state by clicks; an operator key carries
one of `+`, `-`, `*`, `/`, the other keys any value. -/
inductive Reachable [LinearOrderedField K] [FloorRing K] (env : Env K) : State K → Prop where
  | init : Reachable env State.init
  | step {st : State K} (type value : String) :
      Reachable env st → (type = "operator" → isOperatorSymbol value = true) →
      Reachable env (click env type value st)

/-- The pending-arithmetic invariant: `firstOperand` is `null` exactly when
`operator` is, and a pending operator is one of the four operator symbols. -/
def PendingInv (st : State K) : Prop :=
  (st.firstOperand = .null ↔ st.operator = none)
  ∧ (∀ o : String, st.operator = some o → isOperatorSymbol o = true)

/-- The base formula of the comment at lines 223-225, for the five register
values, at a period rate `r = iy / 100` that is not zero:
`PV + PMT * ((1 - (1+r)^(-n)) / r) + FV * (1+r)^(-n) = 0`. -/
def baseFormula (n iy pv pmt fv : ℝ) : Prop :=
  iy / 100 ≠ 0
  ∧ pv + pmt * ((1 - (1 + iy / 100) ^ (-n)) / (iy / 100))
      + fv * (1 + iy / 100) ^ (-n) = 0

/-! ## Lemmas on the arithmetic and on the solver -/

@[simp] theorem JSNum.fin_add_fin [LinearOrderedField K] (x y : K) :
    (JSNum.fin x + JSNum.fin y) = JSNum.fin (x + y) := rfl

@[simp] theorem JSNum.neg_fin [LinearOrderedField K] (x : K) :
    -(JSNum.fin x) = JSNum.fin (-x) := rfl

@[simp] theorem JSNum.fin_sub_fin [LinearOrderedField K] (x y : K) :
    (JSNum.fin x - JSNum.fin y) = JSNum.fin (x - y) := by
  show JSNum.fin (x + -y) = JSNum.fin (x - y)
  rw [sub_eq_add_neg]

@[simp] theorem JSNum.fin_mul_fin [LinearOrderedField K] (x y : K) :
    (JSNum.fin x * JSNum.fin y) = JSNum.fin (x * y) := rfl

theorem JSNum.fin_div_fin [LinearOrderedField K] (x : K) {y : K} (hy : y ≠ 0) :
    (JSNum.fin x / JSNum.fin y) = JSNum.fin (x / y) := by
  show JSNum.div (JSNum.fin x) (JSNum.fin y) = _
  simp [JSNum.div, hy]

@[simp] theorem JSNum.seq_fin [LinearOrderedField K] (x y : K) :
    (JSNum.fin x).seq (JSNum.fin y) = decide (x = y) := rfl

theorem rate_fin [LinearOrderedField K] (t : Tvm K) (iy : K) (h : t.iy = .fin iy) :
    rate t = .fin (iy / 100) := by
  unfold rate
  rw [h]
  exact JSNum.fin_div_fin iy (by norm_num)

theorem pow_real (b y : ℝ) (hb : 0 < b) :
    Math.pow ⟨Real.rpow, Real.log, Real.sqrt⟩ (.fin b) (.fin y) = .fin (b ^ y) := by
  unfold Math.pow
  by_cases hy : y = 0
  · simp [hy]
  · simp [hy, hb.ne', hb]

@[simp] theorem showResult_tvm (h : Host K) (r : JSNum K) (st : State K) :
    (showResult h r st).tvm = st.tvm := by
  unfold showResult
  split <;> rfl

theorem showResult_display (h : Host K) (r : JSNum K) (st : State K) :
    (showResult h r st).displayValue =
      if isNaN r || !isFinite r then "Error" else numToString h r := by
  unfold showResult
  split <;> rfl

theorem calculateTVM_FV_tvm [LinearOrderedField K] [FloorRing K] (env : Env K) (st : State K) :
    (calculateTVM env "FV" st).tvm = { st.tvm with fv := resultFV env.math st.tvm } := by
  simp [calculateTVM]

theorem calculateTVM_PV_tvm [LinearOrderedField K] [FloorRing K] (env : Env K) (st : State K) :
    (calculateTVM env "PV" st).tvm = { st.tvm with pv := resultPV env.math st.tvm } := by
  simp [calculateTVM]

theorem calculateTVM_PMT_tvm [LinearOrderedField K] [FloorRing K] (env : Env K) (st : State K) :
    (calculateTVM env "PMT" st).tvm = { st.tvm with pmt := resultPMT env.math st.tvm } := by
  simp [calculateTVM]

theorem calculateTVM_N_tvm [LinearOrderedField K] [FloorRing K] (env : Env K) (st : State K) :
    (calculateTVM env "N" st).tvm = { st.tvm with n := resultN env.math st.tvm } := by
  simp [calculateTVM]

theorem resultFV_real (t : Tvm ℝ) (n iy pv pmt : ℝ)
    (hn : t.n = .fin n) (hiy : t.iy = .fin iy) (hpv : t.pv = .fin pv) (hpmt : t.pmt = .fin pmt)
    (hr : iy ≠ 0) (hb : 0 < 1 + iy / 100) :
    resultFV ⟨Real.rpow, Real.log, Real.sqrt⟩ t
      = .fin (-(pv * (1 + iy / 100) ^ n + pmt * ((1 + iy / 100) ^ n - 1) / (iy / 100))) := by
  have hr2 : iy / 100 ≠ 0 := by positivity
  simp [resultFV, rate_fin t iy hiy, hn, hpv, hpmt, hr, pow_real _ _ hb,
    JSNum.fin_div_fin _ hr2]

theorem resultPV_real (t : Tvm ℝ) (n iy fv pmt : ℝ)
    (hn : t.n = .fin n) (hiy : t.iy = .fin iy) (hfv : t.fv = .fin fv) (hpmt : t.pmt = .fin pmt)
    (hr : iy ≠ 0) (hb : 0 < 1 + iy / 100) :
    resultPV ⟨Real.rpow, Real.log, Real.sqrt⟩ t
      = .fin (-(fv * (1 + iy / 100) ^ (-n)
          + pmt * ((1 - (1 + iy / 100) ^ (-n)) / (iy / 100)))) := by
  have hr2 : iy / 100 ≠ 0 := by positivity
  simp [resultPV, rate_fin t iy hiy, hn, hfv, hpmt, hr, pow_real _ _ hb,
    JSNum.fin_div_fin _ hr2]

/-! ## The claims -/

/-- C1 (round trip FV then PV).  On finite registers with `iy ≠ 0` and
`1 + iy/100 > 0`, under real arithmetic: solving for `FV` stores
`-(pv*(1+r)^n + pmt*((1+r)^n - 1)/r)` in the `fv` register, and solving for `PV`
from the resulting registers stores the original `pv` again, exactly. -/
theorem C1_roundtrip_FV_PV (h : Host ℝ) (st : State ℝ) (n iy pv pmt : ℝ)
    (hn : st.tvm.n = .fin n) (hiy : st.tvm.iy = .fin iy)
    (hpv : st.tvm.pv = .fin pv) (hpmt : st.tvm.pmt = .fin pmt)
    (hr : iy ≠ 0) (hb : 0 < 1 + iy / 100) :
    (calculateTVM ⟨⟨Real.rpow, Real.log, Real.sqrt⟩, h⟩ "FV" st).tvm.fv
        = .fin (-(pv * (1 + iy / 100) ^ n + pmt * ((1 + iy / 100) ^ n - 1) / (iy / 100)))
    ∧ (calculateTVM ⟨⟨Real.rpow, Real.log, Real.sqrt⟩, h⟩ "PV"
        (calculateTVM ⟨⟨Real.rpow, Real.log, Real.sqrt⟩, h⟩ "FV" st)).tvm.pv = .fin pv := by
  have hF := resultFV_real st.tvm n iy pv pmt hn hiy hpv hpmt hr hb
  constructor
  · rw [calculateTVM_FV_tvm]; exact hF
  · rw [calculateTVM_PV_tvm, calculateTVM_FV_tvm]
    show resultPV ⟨Real.rpow, Real.log, Real.sqrt⟩
      { st.tvm with fv := resultFV ⟨Real.rpow, Real.log, Real.sqrt⟩ st.tvm } = _
    rw [resultPV_real { st.tvm with fv := resultFV ⟨Real.rpow, Real.log, Real.sqrt⟩ st.tvm }
      n iy _ pmt hn hiy hF hpmt hr hb]
    have hr2 : iy / 100 ≠ 0 := by positivity
    have hT : 0 < (1 + iy / 100) ^ n := Real.rpow_pos_of_pos hb n
    rw [Real.rpow_neg hb.le]
    congr 1
    generalize (1 + iy / 100) ^ n = T at hT
    generalize iy / 100 = r at hr2
    have hT0 : T ≠ 0 := hT.ne'
    field_simp
    ring

/-- Witness of C1 at `n = 10, iy = 5, pv = -1000, pmt = 0`: the `fv` register receives a
value within `0.01` of `1628.89`, and solving `PV` back gives `-1000`. -/
theorem C1_roundtrip_FV_PV_witness :
    (∃ F : ℝ,
      (calculateTVM ⟨⟨Real.rpow, Real.log, Real.sqrt⟩, refHost⟩ "FV"
        { (State.init : State ℝ) with
          tvm := ⟨.fin 10, .fin 5, .fin (-1000), .fin 0, .fin 0⟩ }).tvm.fv = .fin F
      ∧ |F - 1628.89| < 0.01)
    ∧ (calculateTVM ⟨⟨Real.rpow, Real.log, Real.sqrt⟩, refHost⟩ "PV"
        (calculateTVM ⟨⟨Real.rpow, Real.log, Real.sqrt⟩, refHost⟩ "FV"
          { (State.init : State ℝ) with
            tvm := ⟨.fin 10, .fin 5, .fin (-1000), .fin 0, .fin 0⟩ })).tvm.pv
        = .fin (-1000) := by
  have w := C1_roundtrip_FV_PV refHost
    { (State.init : State ℝ) with tvm := ⟨.fin 10, .fin 5, .fin (-1000), .fin 0, .fin 0⟩ }
    10 5 (-1000) 0 rfl rfl rfl rfl (by norm_num) (by norm_num)
  refine ⟨⟨_, w.1, ?_⟩, w.2⟩
  have e : ((1 : ℝ) + 5 / 100) ^ (10 : ℝ) = (1 + 5 / 100) ^ (10 : ℕ) := by
    rw [← Real.rpow_natCast]; norm_num
  rw [e, abs_lt]
  constructor <;> norm_num


/-- C2 (Solve FV).  With `r = iy / 100`, `calculateTVM` for `FV` stores in the `fv`
register `-(pv + pmt*n)` when `r === 0` and `-(pv*(1+r)^n + pmt*((1+r)^n - 1)/r)`
otherwise, for every register set (first part, in the arithmetic of the script).
On finite registers this is the real number `-(pv + pmt*n)` when `iy = 0`, and the
real number `-(pv*(1+r)^n + pmt*((1+r)^n - 1)/r)` when `iy ≠ 0` and `1 + r > 0`;
with `n = 12, iy = 0, pv = -1200, pmt = 100` the stored value is `0`. -/
theorem C2_solve_FV (h : Host ℝ) (st : State ℝ) :
    (calculateTVM ⟨⟨Real.rpow, Real.log, Real.sqrt⟩, h⟩ "FV" st).tvm.fv
        = (if (st.tvm.iy / .fin 100).seq (.fin 0) then
            -(st.tvm.pv + st.tvm.pmt * st.tvm.n)
          else
            -(st.tvm.pv
                * Math.pow ⟨Real.rpow, Real.log, Real.sqrt⟩
                    (.fin 1 + st.tvm.iy / .fin 100) st.tvm.n
              + st.tvm.pmt
                * (Math.pow ⟨Real.rpow, Real.log, Real.sqrt⟩
                    (.fin 1 + st.tvm.iy / .fin 100) st.tvm.n - .fin 1)
                / (st.tvm.iy / .fin 100)))
    ∧ (∀ n iy pv pmt : ℝ, st.tvm.n = .fin n → st.tvm.iy = .fin iy →
        st.tvm.pv = .fin pv → st.tvm.pmt = .fin pmt →
        (iy = 0 →
          (calculateTVM ⟨⟨Real.rpow, Real.log, Real.sqrt⟩, h⟩ "FV" st).tvm.fv
            = .fin (-(pv + pmt * n)))
        ∧ (iy ≠ 0 → 0 < 1 + iy / 100 →
          (calculateTVM ⟨⟨Real.rpow, Real.log, Real.sqrt⟩, h⟩ "FV" st).tvm.fv
            = .fin (-(pv * (1 + iy / 100) ^ n
                + pmt * ((1 + iy / 100) ^ n - 1) / (iy / 100)))))
    ∧ (st.tvm.n = .fin 12 → st.tvm.iy = .fin 0 → st.tvm.pv = .fin (-1200) →
        st.tvm.pmt = .fin 100 →
        (calculateTVM ⟨⟨Real.rpow, Real.log, Real.sqrt⟩, h⟩ "FV" st).tvm.fv = .fin 0) := by
  have key : (calculateTVM ⟨⟨Real.rpow, Real.log, Real.sqrt⟩, h⟩ "FV" st).tvm.fv
      = resultFV ⟨Real.rpow, Real.log, Real.sqrt⟩ st.tvm := by
    simp [calculateTVM]
  refine ⟨?_, ?_, ?_⟩
  · rw [key]; rfl
  · intro n iy pv pmt hn hiy hpv hpmt
    rw [key]
    constructor
    · intro h0
      simp [resultFV, rate_fin st.tvm iy hiy, hn, hpv, hpmt, h0]
    · intro h0 hb
      have hr : iy / 100 ≠ 0 := by positivity
      simp [resultFV, rate_fin st.tvm iy hiy, hn, hpv, hpmt, hr, h0, pow_real _ _ hb,
        JSNum.fin_div_fin _ hr]
  · intro hn hiy hpv hpmt
    rw [key]
    simp [resultFV, rate_fin st.tvm 0 hiy, hn, hpv, hpmt]
    norm_num


/-- Witness of C2: the registers `n = 12, iy = 0, pv = -1200, pmt = 100` give `fv = 0`. -/
theorem C2_solve_FV_witness :
    (calculateTVM ⟨⟨Real.rpow, Real.log, Real.sqrt⟩, refHost⟩ "FV"
      { (State.init : State ℝ) with
        tvm := ⟨.fin 12, .fin 0, .fin (-1200), .fin 100, .fin 7⟩ }).tvm.fv = .fin 0 :=
  (C2_solve_FV refHost
    { (State.init : State ℝ) with
      tvm := ⟨.fin 12, .fin 0, .fin (-1200), .fin 100, .fin 7⟩ }).2.2 rfl rfl rfl rfl

/-- C3 (Solve PV).  With `r = iy / 100`, `calculateTVM` for `PV` stores in the `pv`
register `-(fv + pmt*n)` when `r === 0` and, otherwise, `-(fv*term + pmt*af)` with
`term = (1+r)^(-n)` and `af = (1 - term)/r`, for every register set (first part, in
the arithmetic of the script).  On finite registers this is the real number
`-(fv + pmt*n)` when `iy = 0`, and the real number `-(fv*term + pmt*af)` when
`iy ≠ 0` and `1 + r > 0`. -/
theorem C3_solve_PV (h : Host ℝ) (st : State ℝ) :
    (calculateTVM ⟨⟨Real.rpow, Real.log, Real.sqrt⟩, h⟩ "PV" st).tvm.pv
        = (if (st.tvm.iy / .fin 100).seq (.fin 0) then
            -(st.tvm.fv + st.tvm.pmt * st.tvm.n)
          else
            -(st.tvm.fv
                * Math.pow ⟨Real.rpow, Real.log, Real.sqrt⟩
                    (.fin 1 + st.tvm.iy / .fin 100) (-st.tvm.n)
              + st.tvm.pmt
                * ((.fin 1 - Math.pow ⟨Real.rpow, Real.log, Real.sqrt⟩
                    (.fin 1 + st.tvm.iy / .fin 100) (-st.tvm.n))
                  / (st.tvm.iy / .fin 100))))
    ∧ (∀ n iy fv pmt : ℝ, st.tvm.n = .fin n → st.tvm.iy = .fin iy →
        st.tvm.fv = .fin fv → st.tvm.pmt = .fin pmt →
        (iy = 0 →
          (calculateTVM ⟨⟨Real.rpow, Real.log, Real.sqrt⟩, h⟩ "PV" st).tvm.pv
            = .fin (-(fv + pmt * n)))
        ∧ (iy ≠ 0 → 0 < 1 + iy / 100 →
          (calculateTVM ⟨⟨Real.rpow, Real.log, Real.sqrt⟩, h⟩ "PV" st).tvm.pv
            = .fin (-(fv * (1 + iy / 100) ^ (-n)
                + pmt * ((1 - (1 + iy / 100) ^ (-n)) / (iy / 100)))))) := by
  have key : (calculateTVM ⟨⟨Real.rpow, Real.log, Real.sqrt⟩, h⟩ "PV" st).tvm.pv
      = resultPV ⟨Real.rpow, Real.log, Real.sqrt⟩ st.tvm := by
    rw [calculateTVM_PV_tvm]
  refine ⟨?_, ?_⟩
  · rw [key]; rfl
  · intro n iy fv pmt hn hiy hfv hpmt
    rw [key]
    constructor
    · intro h0
      simp [resultPV, rate_fin st.tvm iy hiy, hn, hfv, hpmt, h0]
    · intro h0 hb
      exact resultPV_real st.tvm n iy fv pmt hn hiy hfv hpmt h0 hb

/-- Witness of C3: with `n = 2, iy = 100, pmt = 0, fv = 400` the `pv` register
receives `-(400 * 2^(-2)) = -100`; with `iy = 0, n = 12, pmt = 100, fv = 0` it
receives `-1200`. -/
theorem C3_solve_PV_witness :
    (calculateTVM ⟨⟨Real.rpow, Real.log, Real.sqrt⟩, refHost⟩ "PV"
      { (State.init : State ℝ) with
        tvm := ⟨.fin 2, .fin 100, .fin 0, .fin 0, .fin 400⟩ }).tvm.pv = .fin (-100)
    ∧ (calculateTVM ⟨⟨Real.rpow, Real.log, Real.sqrt⟩, refHost⟩ "PV"
      { (State.init : State ℝ) with
        tvm := ⟨.fin 12, .fin 0, .fin 0, .fin 100, .fin 0⟩ }).tvm.pv = .fin (-1200) := by
  constructor
  · rw [((C3_solve_PV refHost
      { (State.init : State ℝ) with
        tvm := ⟨.fin 2, .fin 100, .fin 0, .fin 0, .fin 400⟩ }).2
        2 100 400 0 rfl rfl rfl rfl).2 (by norm_num) (by norm_num)]
    have e : ((1 : ℝ) + 100 / 100) ^ (-(2 : ℝ)) = ((1 + 100 / 100) ^ (2 : ℕ))⁻¹ := by
      rw [Real.rpow_neg (by norm_num), ← Real.rpow_natCast]; norm_num
    rw [e]
    norm_num
  · rw [((C3_solve_PV refHost
      { (State.init : State ℝ) with
        tvm := ⟨.fin 12, .fin 0, .fin 0, .fin 100, .fin 0⟩ }).2
        12 0 0 100 rfl rfl rfl rfl).1 rfl]
    norm_num

theorem isFinite_div_zero [LinearOrderedField K] (a : JSNum K) :
    isFinite (a / JSNum.fin 0) = false := by
  show isFinite (JSNum.div a (JSNum.fin 0)) = false
  cases a with
  | fin x =>
    by_cases hx : x = 0
    · simp [JSNum.div, hx, isFinite]
    · by_cases hp : 0 < x <;> simp [JSNum.div, hx, JSNum.infLike, hp, isFinite]
  | pinf => simp [JSNum.div, isFinite]
  | ninf => simp [JSNum.div, isFinite]
  | nan => simp [JSNum.div, isFinite]

theorem isFinite_div_nan [LinearOrderedField K] (a : JSNum K) :
    isFinite (a / JSNum.nan) = false := by
  show isFinite (JSNum.div a JSNum.nan) = false
  cases a <;> simp [JSNum.div, isFinite]

theorem pow_exp_zero [LinearOrderedField K] [FloorRing K] (m : MathFns K) (b : JSNum K) :
    Math.pow m b (JSNum.fin 0) = JSNum.fin 1 := by
  simp [Math.pow]

theorem showResult_error (h : Host K) (r : JSNum K) (st : State K)
    (hr : isFinite r = false) : (showResult h r st).displayValue = "Error" := by
  rw [showResult_display]
  simp [hr]

theorem resultPMT_n_zero [LinearOrderedField K] [FloorRing K] (m : MathFns K) (t : Tvm K)
    (hn : t.n = .fin 0) : isFinite (resultPMT m t) = false := by
  unfold resultPMT
  simp only [hn]
  split
  · exact isFinite_div_zero _
  · rename_i hseq
    have e : (-(JSNum.fin (0 : K))) = JSNum.fin 0 := by simp
    rw [e, pow_exp_zero]
    cases hr : rate t with
    | fin x =>
      rw [hr] at hseq
      have hx : x ≠ 0 := by simpa using hseq
      rw [JSNum.fin_sub_fin, JSNum.fin_div_fin _ hx]
      simp only [sub_self, zero_div]
      exact isFinite_div_zero _
    | pinf =>
      have e2 : ((JSNum.fin (1 : K) - JSNum.fin 1) / JSNum.pinf) = JSNum.fin 0 := rfl
      rw [e2]; exact isFinite_div_zero _
    | ninf =>
      have e2 : ((JSNum.fin (1 : K) - JSNum.fin 1) / JSNum.ninf) = JSNum.fin 0 := rfl
      rw [e2]; exact isFinite_div_zero _
    | nan =>
      have e2 : ((JSNum.fin (1 : K) - JSNum.fin 1) / JSNum.nan) = JSNum.nan := rfl
      rw [e2]; exact isFinite_div_nan _

theorem rpow_ne_one {b y : ℝ} (hb : 0 < b) (hb1 : b ≠ 1) (hy : y ≠ 0) : b ^ y ≠ 1 := by
  rw [Real.rpow_def_of_pos hb]
  intro hexp
  rw [Real.exp_eq_one_iff] at hexp
  rcases mul_eq_zero.mp hexp with h0 | h0
  · exact Real.log_ne_zero_of_pos_of_ne_one hb hb1 h0
  · exact hy h0

theorem resultPMT_real (t : Tvm ℝ) (n iy pv fv : ℝ)
    (hn : t.n = .fin n) (hiy : t.iy = .fin iy) (hpv : t.pv = .fin pv) (hfv : t.fv = .fin fv)
    (hr : iy ≠ 0) (hb : 0 < 1 + iy / 100) (hn0 : n ≠ 0) :
    resultPMT ⟨Real.rpow, Real.log, Real.sqrt⟩ t
      = .fin ((-pv - fv * (1 + iy / 100) ^ (-n))
          / ((1 - (1 + iy / 100) ^ (-n)) / (iy / 100))) := by
  have hr2 : iy / 100 ≠ 0 := by positivity
  have hb1 : 1 + iy / 100 ≠ 1 := by
    intro e; apply hr2; linarith
  have hT : (1 + iy / 100) ^ (-n) ≠ 1 := rpow_ne_one hb hb1 (neg_ne_zero.mpr hn0)
  have haf : (1 - (1 + iy / 100) ^ (-n)) / (iy / 100) ≠ 0 :=
    div_ne_zero (sub_ne_zero.mpr (Ne.symm hT)) hr2
  simp only [resultPMT, rate_fin t iy hiy, hn, hpv, hfv, JSNum.seq_fin, hr2, decide_False,
    JSNum.neg_fin, JSNum.fin_add_fin, pow_real _ _ hb, JSNum.fin_sub_fin,
    JSNum.fin_div_fin _ hr2, JSNum.fin_mul_fin, JSNum.fin_div_fin _ haf]
  simp

/-- C4 (Solve PMT).  With `r = iy / 100`, `calculateTVM` for `PMT` stores in the
`pmt` register `-(pv+fv)/n` when `r === 0` and `(-pv - fv*term)/af` otherwise
(`term = (1+r)^(-n)`, `af = (1 - term)/r`), for every register set (first part, in
the arithmetic of the script).  On finite registers with `n ≠ 0` this is the real
number `-(pv+fv)/n` when `iy = 0` and the real number `(-pv - fv*term)/af` when
`iy ≠ 0` and `1 + r > 0`.  Whenever the `n` register is `0`, whatever the other
registers hold, the result is not finite and the display is `Error`. -/
theorem C4_solve_PMT (h : Host ℝ) (st : State ℝ) :
    (calculateTVM ⟨⟨Real.rpow, Real.log, Real.sqrt⟩, h⟩ "PMT" st).tvm.pmt
        = (if (st.tvm.iy / .fin 100).seq (.fin 0) then
            -(st.tvm.pv + st.tvm.fv) / st.tvm.n
          else
            (-st.tvm.pv
              - st.tvm.fv
                * Math.pow ⟨Real.rpow, Real.log, Real.sqrt⟩
                    (.fin 1 + st.tvm.iy / .fin 100) (-st.tvm.n))
            / ((.fin 1 - Math.pow ⟨Real.rpow, Real.log, Real.sqrt⟩
                  (.fin 1 + st.tvm.iy / .fin 100) (-st.tvm.n))
                / (st.tvm.iy / .fin 100)))
    ∧ (∀ n iy pv fv : ℝ, st.tvm.n = .fin n → st.tvm.iy = .fin iy →
        st.tvm.pv = .fin pv → st.tvm.fv = .fin fv → n ≠ 0 →
        (iy = 0 →
          (calculateTVM ⟨⟨Real.rpow, Real.log, Real.sqrt⟩, h⟩ "PMT" st).tvm.pmt
            = .fin (-(pv + fv) / n))
        ∧ (iy ≠ 0 → 0 < 1 + iy / 100 →
          (calculateTVM ⟨⟨Real.rpow, Real.log, Real.sqrt⟩, h⟩ "PMT" st).tvm.pmt
            = .fin ((-pv - fv * (1 + iy / 100) ^ (-n))
                / ((1 - (1 + iy / 100) ^ (-n)) / (iy / 100)))))
    ∧ (st.tvm.n = .fin 0 →
        isFinite (calculateTVM ⟨⟨Real.rpow, Real.log, Real.sqrt⟩, h⟩ "PMT" st).tvm.pmt = false
        ∧ (calculateTVM ⟨⟨Real.rpow, Real.log, Real.sqrt⟩, h⟩ "PMT" st).displayValue
            = "Error") := by
  have key : (calculateTVM ⟨⟨Real.rpow, Real.log, Real.sqrt⟩, h⟩ "PMT" st).tvm.pmt
      = resultPMT ⟨Real.rpow, Real.log, Real.sqrt⟩ st.tvm := by
    rw [calculateTVM_PMT_tvm]
  refine ⟨?_, ?_, ?_⟩
  · rw [key]; rfl
  · intro n iy pv fv hn hiy hpv hfv hn0
    rw [key]
    constructor
    · intro h0
      simp [resultPMT, rate_fin st.tvm iy hiy, hn, hpv, hfv, h0, JSNum.fin_div_fin _ hn0]
    · intro h0 hb
      exact resultPMT_real st.tvm n iy pv fv hn hiy hpv hfv h0 hb hn0
  · intro hn
    have hnf := resultPMT_n_zero ⟨Real.rpow, Real.log, Real.sqrt⟩ st.tvm hn
    refine ⟨by rw [key]; exact hnf, ?_⟩
    simp only [calculateTVM]
    exact showResult_error _ _ _ hnf

/-- Witness of C4: with `n = 0` (and `iy = 5, pv = -1000, fv = 0`) the display is
`Error`; with `n = 12, iy = 0, pv = -1200, fv = 0` the `pmt` register receives `100`. -/
theorem C4_solve_PMT_witness :
    (calculateTVM ⟨⟨Real.rpow, Real.log, Real.sqrt⟩, refHost⟩ "PMT"
      { (State.init : State ℝ) with
        tvm := ⟨.fin 0, .fin 5, .fin (-1000), .fin 0, .fin 0⟩ }).displayValue = "Error"
    ∧ (calculateTVM ⟨⟨Real.rpow, Real.log, Real.sqrt⟩, refHost⟩ "PMT"
      { (State.init : State ℝ) with
        tvm := ⟨.fin 12, .fin 0, .fin (-1200), .fin 0, .fin 0⟩ }).tvm.pmt = .fin 100 := by
  constructor
  · exact ((C4_solve_PMT refHost
      { (State.init : State ℝ) with
        tvm := ⟨.fin 0, .fin 5, .fin (-1000), .fin 0, .fin 0⟩ }).2.2 rfl).2
  · rw [((C4_solve_PMT refHost
      { (State.init : State ℝ) with
        tvm := ⟨.fin 12, .fin 0, .fin (-1200), .fin 0, .fin 0⟩ }).2.1
        12 0 (-1200) 0 rfl rfl rfl rfl (by norm_num)).1 rfl]
    norm_num

theorem digitChar_ne_E (d : Nat) : digitChar d ≠ 'E' := by
  unfold digitChar
  have h : d % 10 < 10 := Nat.mod_lt d (by norm_num)
  generalize d % 10 = k at h
  interval_cases k <;> decide

theorem natDigits_ne_E {c : Char} {n : Nat} (hc : c ∈ natDigits n) : c ≠ 'E' := by
  unfold natDigits at hc
  split at hc
  · rw [List.mem_singleton] at hc
    rw [hc]; exact digitChar_ne_E 0
  · rw [List.mem_reverse, List.mem_map] at hc
    obtain ⟨a, _, rfl⟩ := hc
    exact digitChar_ne_E a

theorem fracDigits_ne_E [LinearOrderedField K] [FloorRing K] {c : Char} :
    ∀ (k : Nat) (f : K), c ∈ fracDigits k f → c ≠ 'E' := by
  intro k
  induction k with
  | zero => intro f hc; simp [fracDigits] at hc
  | succ k ih =>
    intro f hc
    unfold fracDigits at hc
    split at hc
    · simp at hc
    · rw [List.mem_cons] at hc
      rcases hc with rfl | hc
      · exact digitChar_ne_E _
      · exact ih _ hc

theorem renderDecimal_ne_error [LinearOrderedField K] [FloorRing K] (x : K) :
    renderDecimal x ≠ "Error" := by
  intro e
  have hmem : 'E' ∈ (renderDecimal x).data := by
    rw [e]; decide
  unfold renderDecimal at hmem
  simp only [List.mem_append] at hmem
  rcases hmem with (hmem | hmem) | hmem
  · split at hmem
    · rw [List.mem_singleton] at hmem
      exact absurd hmem (by decide)
    · simp at hmem
  · exact natDigits_ne_E hmem rfl
  · split at hmem
    · simp at hmem
    · rw [List.mem_cons] at hmem
      rcases hmem with hmem | hmem
      · exact absurd hmem (by decide)
      · exact fracDigits_ne_E _ _ hmem rfl

theorem log_real (x : ℝ) (hx : 0 < x) :
    Math.log ⟨Real.rpow, Real.log, Real.sqrt⟩ (.fin x) = .fin (Real.log x) := by
  simp [Math.log, not_lt.mpr hx.le, hx.ne']

theorem resultN_real (t : Tvm ℝ) (iy pv pmt fv : ℝ)
    (hiy : t.iy = .fin iy) (hpv : t.pv = .fin pv) (hpmt : t.pmt = .fin pmt)
    (hfv : t.fv = .fin fv) (hr : iy ≠ 0) (hb : 0 < 1 + iy / 100)
    (hpos : 0 < (pmt - fv * (iy / 100)) / (pmt + pv * (iy / 100))) :
    resultN ⟨Real.rpow, Real.log, Real.sqrt⟩ t
      = .fin (Real.log ((pmt - fv * (iy / 100)) / (pmt + pv * (iy / 100)))
          / Real.log (1 + iy / 100)) := by
  have hr2 : iy / 100 ≠ 0 := by positivity
  have hden : pmt + pv * (iy / 100) ≠ 0 := by
    intro e; rw [e, div_zero] at hpos; exact lt_irrefl _ hpos
  have hb1 : 1 + iy / 100 ≠ 1 := by
    intro e; apply hr2; linarith
  have hlog : Real.log (1 + iy / 100) ≠ 0 := Real.log_ne_zero_of_pos_of_ne_one hb hb1
  simp only [resultN, rate_fin t iy hiy, hpv, hpmt, hfv, JSNum.seq_fin, hr2, decide_False,
    JSNum.fin_mul_fin, JSNum.fin_sub_fin, JSNum.fin_add_fin, JSNum.fin_div_fin _ hden,
    JSNum.le, JSNum.lt, not_lt.mpr hpos.le, hpos.ne', Bool.or_self, log_real _ hpos,
    log_real _ hb, JSNum.fin_div_fin _ hlog]
  simp

theorem resultN_nonpos (t : Tvm ℝ) (iy pv pmt fv : ℝ)
    (hiy : t.iy = .fin iy) (hpv : t.pv = .fin pv) (hpmt : t.pmt = .fin pmt)
    (hfv : t.fv = .fin fv) (hr : iy ≠ 0) (hden : pmt + pv * (iy / 100) ≠ 0)
    (hle : (pmt - fv * (iy / 100)) / (pmt + pv * (iy / 100)) ≤ 0) :
    resultN ⟨Real.rpow, Real.log, Real.sqrt⟩ t = .nan := by
  have hr2 : iy / 100 ≠ 0 := by positivity
  simp only [resultN, rate_fin t iy hiy, hpv, hpmt, hfv, JSNum.seq_fin, hr2, decide_False,
    JSNum.fin_mul_fin, JSNum.fin_sub_fin, JSNum.fin_add_fin, JSNum.fin_div_fin _ hden,
    JSNum.le, JSNum.lt]
  rcases hle.lt_or_eq with h1 | h1
  · simp [h1]
  · simp [h1]

/-- C5 (Solve N).  With `r = iy / 100`, `calculateTVM` for `N` stores in the `n`
register `-(pv+fv)/pmt` when `r === 0`; otherwise, with
`numerator = pmt - fv*r` and `denominator = pmt + pv*r`, it stores `NaN` and shows
`Error` when `numerator/denominator <= 0`, and stores
`ln(numerator/denominator) / ln(1+r)` when not, for every register set (first two
parts, in the arithmetic of the script).  On finite registers: the real number
`-(pv+fv)/pmt` when `iy = 0` and `pmt ≠ 0`; when `iy ≠ 0` and the denominator is
not zero, `NaN` and the display `Error` if the real ratio is `≤ 0`, and the real
number `ln(ratio)/ln(1+r)` if the ratio is positive and `1 + r > 0`. -/
theorem C5_solve_N (h : Host ℝ) (st : State ℝ) :
    (calculateTVM ⟨⟨Real.rpow, Real.log, Real.sqrt⟩, h⟩ "N" st).tvm.n
        = (if (st.tvm.iy / .fin 100).seq (.fin 0) then
            -(st.tvm.pv + st.tvm.fv) / st.tvm.pmt
          else if ((st.tvm.pmt - st.tvm.fv * (st.tvm.iy / .fin 100))
              / (st.tvm.pmt + st.tvm.pv * (st.tvm.iy / .fin 100))).le (.fin 0) then
            .nan
          else
            Math.log ⟨Real.rpow, Real.log, Real.sqrt⟩
                ((st.tvm.pmt - st.tvm.fv * (st.tvm.iy / .fin 100))
                  / (st.tvm.pmt + st.tvm.pv * (st.tvm.iy / .fin 100)))
              / Math.log ⟨Real.rpow, Real.log, Real.sqrt⟩ (.fin 1 + st.tvm.iy / .fin 100))
    ∧ ((st.tvm.iy / .fin 100).seq (.fin 0) = false →
        ((st.tvm.pmt - st.tvm.fv * (st.tvm.iy / .fin 100))
          / (st.tvm.pmt + st.tvm.pv * (st.tvm.iy / .fin 100))).le (.fin 0) = true →
        (calculateTVM ⟨⟨Real.rpow, Real.log, Real.sqrt⟩, h⟩ "N" st).displayValue = "Error")
    ∧ (∀ iy pv pmt fv : ℝ, st.tvm.iy = .fin iy → st.tvm.pv = .fin pv →
        st.tvm.pmt = .fin pmt → st.tvm.fv = .fin fv →
        (iy = 0 → pmt ≠ 0 →
          (calculateTVM ⟨⟨Real.rpow, Real.log, Real.sqrt⟩, h⟩ "N" st).tvm.n
            = .fin (-(pv + fv) / pmt))
        ∧ (iy ≠ 0 → pmt + pv * (iy / 100) ≠ 0 →
            (pmt - fv * (iy / 100)) / (pmt + pv * (iy / 100)) ≤ 0 →
          (calculateTVM ⟨⟨Real.rpow, Real.log, Real.sqrt⟩, h⟩ "N" st).tvm.n = .nan
          ∧ (calculateTVM ⟨⟨Real.rpow, Real.log, Real.sqrt⟩, h⟩ "N" st).displayValue
              = "Error")
        ∧ (iy ≠ 0 → 0 < 1 + iy / 100 →
            0 < (pmt - fv * (iy / 100)) / (pmt + pv * (iy / 100)) →
          (calculateTVM ⟨⟨Real.rpow, Real.log, Real.sqrt⟩, h⟩ "N" st).tvm.n
            = .fin (Real.log ((pmt - fv * (iy / 100)) / (pmt + pv * (iy / 100)))
                / Real.log (1 + iy / 100)))) := by
  have key : (calculateTVM ⟨⟨Real.rpow, Real.log, Real.sqrt⟩, h⟩ "N" st).tvm.n
      = resultN ⟨Real.rpow, Real.log, Real.sqrt⟩ st.tvm := by
    rw [calculateTVM_N_tvm]
  have disp : (calculateTVM ⟨⟨Real.rpow, Real.log, Real.sqrt⟩, h⟩ "N" st).displayValue
      = if isNaN (resultN ⟨Real.rpow, Real.log, Real.sqrt⟩ st.tvm)
          || !isFinite (resultN ⟨Real.rpow, Real.log, Real.sqrt⟩ st.tvm)
        then "Error"
        else numToString h (resultN ⟨Real.rpow, Real.log, Real.sqrt⟩ st.tvm) := by
    simp only [calculateTVM]
    exact showResult_display _ _ _
  refine ⟨?_, ?_, ?_⟩
  · rw [key]; rfl
  · intro h1 h2
    have e : resultN ⟨Real.rpow, Real.log, Real.sqrt⟩ st.tvm = .nan := by
      simp only [resultN, rate, h1, h2]
      simp
    rw [disp, e]
    rfl
  · intro iy pv pmt fv hiy hpv hpmt hfv
    refine ⟨?_, ?_, ?_⟩
    · intro h0 hp
      rw [key]
      simp [resultN, rate_fin st.tvm iy hiy, hpv, hpmt, hfv, h0, JSNum.fin_div_fin _ hp]
    · intro h0 hden hle
      have e := resultN_nonpos st.tvm iy pv pmt fv hiy hpv hpmt hfv h0 hden hle
      refine ⟨by rw [key]; exact e, ?_⟩
      rw [disp, e]
      rfl
    · intro h0 hb hpos
      rw [key]
      exact resultN_real st.tvm iy pv pmt fv hiy hpv hpmt hfv h0 hb hpos

/-- Witness of C5: with `iy = 5, pv = -2100, pmt = 100, fv = 100` the ratio is
`95 / (-5) ≤ 0`, the `n` register receives `NaN` and the display is `Error`; with
`iy = 0, pv = -1200, pmt = 100, fv = 0` the `n` register receives `12`. -/
theorem C5_solve_N_witness :
    ((calculateTVM ⟨⟨Real.rpow, Real.log, Real.sqrt⟩, refHost⟩ "N"
        { (State.init : State ℝ) with
          tvm := ⟨.fin 0, .fin 5, .fin (-2100), .fin 100, .fin 100⟩ }).tvm.n = .nan
      ∧ (calculateTVM ⟨⟨Real.rpow, Real.log, Real.sqrt⟩, refHost⟩ "N"
        { (State.init : State ℝ) with
          tvm := ⟨.fin 0, .fin 5, .fin (-2100), .fin 100, .fin 100⟩ }).displayValue
          = "Error")
    ∧ (calculateTVM ⟨⟨Real.rpow, Real.log, Real.sqrt⟩, refHost⟩ "N"
        { (State.init : State ℝ) with
          tvm := ⟨.fin 0, .fin 0, .fin (-1200), .fin 100, .fin 0⟩ }).tvm.n = .fin 12 := by
  constructor
  · exact ((C5_solve_N refHost
      { (State.init : State ℝ) with
        tvm := ⟨.fin 0, .fin 5, .fin (-2100), .fin 100, .fin 100⟩ }).2.2
        5 (-2100) 100 100 rfl rfl rfl rfl).2.1 (by norm_num) (by norm_num) (by norm_num)
  · rw [((C5_solve_N refHost
      { (State.init : State ℝ) with
        tvm := ⟨.fin 0, .fin 0, .fin (-1200), .fin 100, .fin 0⟩ }).2.2
        0 (-1200) 100 0 rfl rfl rfl rfl).1 rfl (by norm_num)]
    norm_num

theorem handleTVM_compute [LinearOrderedField K] [FloorRing K] (env : Env K) (key : String)
    (st : State K) (hc : st.isComputing = true) :
    handleTVM env key st
      = { calculateTVM env key st with isComputing := false, waitingForSecondOperand := true } := by
  simp [handleTVM, hc]

theorem handleControl_CPT (st : State K) :
    handleControl "CPT" st = { st with isComputing := true } := by
  simp [handleControl]

theorem calculateTVM_N_display [LinearOrderedField K] [FloorRing K] (env : Env K)
    (st : State K) :
    (calculateTVM env "N" st).displayValue
      = if isNaN (resultN env.math st.tvm) || !isFinite (resultN env.math st.tvm) then "Error"
        else numToString env.host (resultN env.math st.tvm) := by
  simp only [calculateTVM]
  exact showResult_display _ _ _

/-- C6, counterexample.  With `pmt = 100, fv = 100, iy = 5, pv = 100` the ratio
`(pmt - fv*r)/(pmt + pv*r)` is `95/105 > 0`; after Compute then the key `N` the `n`
register holds the finite number `ln(95/105)/ln(1.05)` and the display is not
`Error`. -/
theorem C6_counterexample :
    (0 : ℝ) < (100 - 100 * (5 / 100)) / (100 + 100 * (5 / 100))
    ∧ (handleTVM ⟨⟨Real.rpow, Real.log, Real.sqrt⟩, refHost⟩ "N"
        (handleControl "CPT"
          { (State.init : State ℝ) with
            tvm := ⟨.fin 0, .fin 5, .fin 100, .fin 100, .fin 100⟩ })).tvm.n
        = .fin (Real.log ((100 - 100 * (5 / 100)) / (100 + 100 * (5 / 100)))
            / Real.log (1 + 5 / 100))
    ∧ (handleTVM ⟨⟨Real.rpow, Real.log, Real.sqrt⟩, refHost⟩ "N"
        (handleControl "CPT"
          { (State.init : State ℝ) with
            tvm := ⟨.fin 0, .fin 5, .fin 100, .fin 100, .fin 100⟩ })).displayValue
        ≠ "Error" := by
  have hpos : (0 : ℝ) < (100 - 100 * (5 / 100)) / (100 + 100 * (5 / 100)) := by norm_num
  have e := resultN_real
    (⟨.fin 0, .fin 5, .fin 100, .fin 100, .fin 100⟩ : Tvm ℝ) 5 100 100 100
    rfl rfl rfl rfl (by norm_num) (by norm_num) hpos
  refine ⟨hpos, ?_, ?_⟩
  · rw [handleControl_CPT, handleTVM_compute _ _ _ rfl]
    show (calculateTVM _ "N" _).tvm.n = _
    rw [calculateTVM_N_tvm]
    exact e
  · rw [handleControl_CPT, handleTVM_compute _ _ _ rfl]
    show (calculateTVM _ "N" _).displayValue ≠ _
    rw [calculateTVM_N_display]
    show (if isNaN (resultN ⟨Real.rpow, Real.log, Real.sqrt⟩
        (⟨.fin 0, .fin 5, .fin 100, .fin 100, .fin 100⟩ : Tvm ℝ))
      || !isFinite (resultN ⟨Real.rpow, Real.log, Real.sqrt⟩
        (⟨.fin 0, .fin 5, .fin 100, .fin 100, .fin 100⟩ : Tvm ℝ)) then "Error"
      else numToString refHost (resultN ⟨Real.rpow, Real.log, Real.sqrt⟩
        (⟨.fin 0, .fin 5, .fin 100, .fin 100, .fin 100⟩ : Tvm ℝ))) ≠ "Error"
    rw [e]
    exact renderDecimal_ne_error _

/-- C6, amended.  With `pmt = 100, fv = 100, iy = 5, pv = 100` the ratio
`(pmt - fv*r)/(pmt + pv*r) = 95/105` is positive, so the solve does not fail:
after Compute then the key `N`, the `n` register holds the finite negative number
`ln(95/105)/ln(1.05)` and the display is the rendering of that number, which is not
the error sentinel as soon as no number is rendered as `Error`. -/
theorem C6_solve_N_example (h : Host ℝ) (st : State ℝ)
    (hiy : st.tvm.iy = .fin 5) (hpv : st.tvm.pv = .fin 100)
    (hpmt : st.tvm.pmt = .fin 100) (hfv : st.tvm.fv = .fin 100)
    (hrender : ∀ x : ℝ, h.render x ≠ "Error") :
    (0 : ℝ) < (100 - 100 * (5 / 100)) / (100 + 100 * (5 / 100))
    ∧ Real.log ((100 - 100 * (5 / 100)) / (100 + 100 * (5 / 100))) / Real.log (1 + 5 / 100) < 0
    ∧ (handleTVM ⟨⟨Real.rpow, Real.log, Real.sqrt⟩, h⟩ "N" (handleControl "CPT" st)).tvm.n
        = .fin (Real.log ((100 - 100 * (5 / 100)) / (100 + 100 * (5 / 100)))
            / Real.log (1 + 5 / 100))
    ∧ (handleTVM ⟨⟨Real.rpow, Real.log, Real.sqrt⟩, h⟩ "N"
        (handleControl "CPT" st)).displayValue
        = h.render (Real.log ((100 - 100 * (5 / 100)) / (100 + 100 * (5 / 100)))
            / Real.log (1 + 5 / 100))
    ∧ (handleTVM ⟨⟨Real.rpow, Real.log, Real.sqrt⟩, h⟩ "N"
        (handleControl "CPT" st)).displayValue ≠ "Error" := by
  have hpos : (0 : ℝ) < (100 - 100 * (5 / 100)) / (100 + 100 * (5 / 100)) := by norm_num
  have e := resultN_real st.tvm 5 100 100 100 hiy hpv hpmt hfv (by norm_num) (by norm_num) hpos
  have hneg : Real.log ((100 - 100 * (5 / 100)) / (100 + 100 * (5 / 100)))
      / Real.log (1 + 5 / 100) < 0 := by
    apply div_neg_of_neg_of_pos
    · exact Real.log_neg hpos (by norm_num)
    · exact Real.log_pos (by norm_num)
  have hd : (handleTVM ⟨⟨Real.rpow, Real.log, Real.sqrt⟩, h⟩ "N"
        (handleControl "CPT" st)).displayValue
        = h.render (Real.log ((100 - 100 * (5 / 100)) / (100 + 100 * (5 / 100)))
            / Real.log (1 + 5 / 100)) := by
    rw [handleControl_CPT, handleTVM_compute _ _ _ rfl]
    show (calculateTVM _ "N" _).displayValue = _
    rw [calculateTVM_N_display]
    show (if isNaN (resultN ⟨Real.rpow, Real.log, Real.sqrt⟩ st.tvm)
      || !isFinite (resultN ⟨Real.rpow, Real.log, Real.sqrt⟩ st.tvm) then "Error"
      else numToString h (resultN ⟨Real.rpow, Real.log, Real.sqrt⟩ st.tvm)) = _
    rw [e]
    rfl
  refine ⟨hpos, hneg, ?_, hd, ?_⟩
  · rw [handleControl_CPT, handleTVM_compute _ _ _ rfl]
    show (calculateTVM _ "N" _).tvm.n = _
    rw [calculateTVM_N_tvm]
    exact e
  · rw [hd]
    exact hrender _

/-- Witness of the amended C6 on the reference host. -/
theorem C6_solve_N_example_witness :
    (handleTVM ⟨⟨Real.rpow, Real.log, Real.sqrt⟩, refHost⟩ "N"
        (handleControl "CPT"
          { (State.init : State ℝ) with
            tvm := ⟨.fin 3, .fin 5, .fin 100, .fin 100, .fin 100⟩ })).tvm.n
        = .fin (Real.log ((100 - 100 * (5 / 100)) / (100 + 100 * (5 / 100)))
            / Real.log (1 + 5 / 100))
    ∧ (handleTVM ⟨⟨Real.rpow, Real.log, Real.sqrt⟩, refHost⟩ "N"
        (handleControl "CPT"
          { (State.init : State ℝ) with
            tvm := ⟨.fin 3, .fin 5, .fin 100, .fin 100, .fin 100⟩ })).displayValue
        ≠ "Error" :=
  have w := C6_solve_N_example refHost
    { (State.init : State ℝ) with tvm := ⟨.fin 3, .fin 5, .fin 100, .fin 100, .fin 100⟩ }
    rfl rfl rfl rfl renderDecimal_ne_error
  ⟨w.2.2.1, w.2.2.2.2⟩

/-- C7 (Solve IY).  For every state, `calculateTVM` for `IY` only shows the
not-supported notice: the state is the old one with the notice added, so the five
registers, the display and every flag are as they were, and no value is computed
or stored. -/
theorem C7_solve_IY_unsupported [LinearOrderedField K] [FloorRing K] (env : Env K)
    (st : State K) :
    calculateTVM env "IY" st = { st with alerts := st.alerts ++ [iyNotice] }
    ∧ (calculateTVM env "IY" st).alerts = st.alerts ++ [iyNotice]
    ∧ (calculateTVM env "IY" st).tvm = st.tvm
    ∧ (calculateTVM env "IY" st).displayValue = st.displayValue := by
  simp [calculateTVM]

theorem calculateTVM_reg [LinearOrderedField K] [FloorRing K] (env : Env K) (st : State K)
    (reg : Reg) (hreg : reg ≠ .IY) :
    (calculateTVM env reg.key st).tvm.get reg = computed env.math st.tvm reg
    ∧ (calculateTVM env reg.key st).displayValue
        = (if isNaN (computed env.math st.tvm reg) || !isFinite (computed env.math st.tvm reg)
            then "Error" else numToString env.host (computed env.math st.tvm reg)) := by
  cases reg with
  | IY => exact absurd rfl hreg
  | N => exact ⟨by simp [Reg.key, calculateTVM, Tvm.get, computed], by
      simp only [Reg.key, calculateTVM, computed]; exact showResult_display _ _ _⟩
  | PV => exact ⟨by simp [Reg.key, calculateTVM, Tvm.get, computed], by
      simp only [Reg.key, calculateTVM, computed]; exact showResult_display _ _ _⟩
  | PMT => exact ⟨by simp [Reg.key, calculateTVM, Tvm.get, computed], by
      simp only [Reg.key, calculateTVM, computed]; exact showResult_display _ _ _⟩
  | FV => exact ⟨by simp [Reg.key, calculateTVM, Tvm.get, computed], by
      simp only [Reg.key, calculateTVM, computed]; exact showResult_display _ _ _⟩

/-- C8 (non-finite results).  For every state and every target among `N`, `PV`,
`PMT`, `FV`, the register receives the computed result, and the display after the
solve is `Error` exactly when that result is `NaN` or infinite; when the result is
a finite `x` the display is its rendering `String(x)`.  The direction "only when"
uses that the platform renders no finite number as the text `Error`. -/
theorem C8_nonfinite_is_error [LinearOrderedField K] [FloorRing K] (env : Env K)
    (st : State K) (reg : Reg) (hreg : reg ≠ .IY)
    (hrender : ∀ x : K, env.host.render x ≠ "Error") :
    (calculateTVM env reg.key st).tvm.get reg = computed env.math st.tvm reg
    ∧ ((calculateTVM env reg.key st).displayValue = "Error"
        ↔ (isNaN (computed env.math st.tvm reg) = true
            ∨ isFinite (computed env.math st.tvm reg) = false))
    ∧ (∀ x : K, computed env.math st.tvm reg = .fin x →
        (calculateTVM env reg.key st).displayValue = env.host.render x) := by
  obtain ⟨h1, h2⟩ := calculateTVM_reg env st reg hreg
  refine ⟨h1, ?_, ?_⟩
  · rw [h2]
    cases hres : computed env.math st.tvm reg with
    | fin x => simpa [isNaN, isFinite, numToString] using hrender x
    | pinf => simp [isNaN, isFinite]
    | ninf => simp [isNaN, isFinite]
    | nan => simp [isNaN, isFinite]
  · intro x hx
    rw [h2, hx]
    rfl

/-- Witness of C8 on the reference host: solving `PMT` with `n = 0` shows `Error`,
the result not being finite. -/
theorem C8_nonfinite_is_error_witness :
    ((calculateTVM ⟨⟨Real.rpow, Real.log, Real.sqrt⟩, refHost⟩ Reg.PMT.key
        { (State.init : State ℝ) with
          tvm := ⟨.fin 0, .fin 5, .fin (-1000), .fin 0, .fin 0⟩ }).displayValue = "Error"
      ↔ (isNaN (computed ⟨Real.rpow, Real.log, Real.sqrt⟩
            (⟨.fin 0, .fin 5, .fin (-1000), .fin 0, .fin 0⟩ : Tvm ℝ) Reg.PMT) = true
          ∨ isFinite (computed ⟨Real.rpow, Real.log, Real.sqrt⟩
            (⟨.fin 0, .fin 5, .fin (-1000), .fin 0, .fin 0⟩ : Tvm ℝ) Reg.PMT) = false))
    ∧ isFinite (computed ⟨Real.rpow, Real.log, Real.sqrt⟩
        (⟨.fin 0, .fin 5, .fin (-1000), .fin 0, .fin 0⟩ : Tvm ℝ) Reg.PMT) = false :=
  ⟨(C8_nonfinite_is_error ⟨⟨Real.rpow, Real.log, Real.sqrt⟩, refHost⟩
      { (State.init : State ℝ) with tvm := ⟨.fin 0, .fin 5, .fin (-1000), .fin 0, .fin 0⟩ }
      Reg.PMT (by decide) renderDecimal_ne_error).2.1,
    resultPMT_n_zero _ _ rfl⟩

theorem renderDecimal_five : renderDecimal (5 : ℝ) = "5" := by
  have h : ¬ ((5 : ℝ) < 0) := by norm_num
  simp [renderDecimal, natDigits, digitChar, h]

/-- C9, counterexample.  In compute mode with the display `7` and the `iy` register
`5`, the key `IY` leaves the display `7` and the register `5`: the display is
neither the error sentinel nor the rendering of the register, and the only effect
besides the flags is the notice. -/
theorem C9_counterexample :
    (handleTVM ⟨⟨Real.rpow, Real.log, Real.sqrt⟩, refHost⟩ "IY"
      { (State.init : State ℝ) with
        displayValue := "7", isComputing := true,
        tvm := ⟨.fin 10, .fin 5, .fin (-1000), .fin 0, .fin 0⟩ }).displayValue = "7"
    ∧ (handleTVM ⟨⟨Real.rpow, Real.log, Real.sqrt⟩, refHost⟩ "IY"
      { (State.init : State ℝ) with
        displayValue := "7", isComputing := true,
        tvm := ⟨.fin 10, .fin 5, .fin (-1000), .fin 0, .fin 0⟩ }).tvm.iy = .fin 5
    ∧ (handleTVM ⟨⟨Real.rpow, Real.log, Real.sqrt⟩, refHost⟩ "IY"
      { (State.init : State ℝ) with
        displayValue := "7", isComputing := true,
        tvm := ⟨.fin 10, .fin 5, .fin (-1000), .fin 0, .fin 0⟩ }).displayValue ≠ "Error"
    ∧ (handleTVM ⟨⟨Real.rpow, Real.log, Real.sqrt⟩, refHost⟩ "IY"
      { (State.init : State ℝ) with
        displayValue := "7", isComputing := true,
        tvm := ⟨.fin 10, .fin 5, .fin (-1000), .fin 0, .fin 0⟩ }).displayValue
        ≠ numToString refHost
            (handleTVM ⟨⟨Real.rpow, Real.log, Real.sqrt⟩, refHost⟩ "IY"
              { (State.init : State ℝ) with
                displayValue := "7", isComputing := true,
                tvm := ⟨.fin 10, .fin 5, .fin (-1000), .fin 0, .fin 0⟩ }).tvm.iy
    ∧ (handleTVM ⟨⟨Real.rpow, Real.log, Real.sqrt⟩, refHost⟩ "IY"
      { (State.init : State ℝ) with
        displayValue := "7", isComputing := true,
        tvm := ⟨.fin 10, .fin 5, .fin (-1000), .fin 0, .fin 0⟩ }).alerts = [iyNotice] := by
  rw [handleTVM_compute _ _ _ rfl]
  refine ⟨?_, ?_, ?_, ?_, ?_⟩
  · simp [calculateTVM]
  · simp [calculateTVM]
  · simp [calculateTVM]
  · simp only [calculateTVM, numToString, refHost, renderDecimal_five]
    decide
  · simp [calculateTVM, State.init]

/-- C9, amended.  For every state with `isComputing` true and every register key,
the key clears `isComputing` and sets `waitingForSecondOperand`.  For `N`, `PV`,
`PMT` and `FV` it stores the computed result in the named register, leaves the
other four registers as they were, and shows the result: `Error` when it is `NaN`
or infinite (the register then holds that non-finite value), its rendering when
not.  For `IY` it shows the not-supported notice and writes neither a register nor
the display. -/
theorem C9_compute_key [LinearOrderedField K] [FloorRing K] (env : Env K) (st : State K)
    (reg : Reg) (hc : st.isComputing = true) :
    (handleTVM env reg.key st).isComputing = false
    ∧ (handleTVM env reg.key st).waitingForSecondOperand = true
    ∧ (reg ≠ .IY →
        (handleTVM env reg.key st).tvm.get reg = computed env.math st.tvm reg
        ∧ (∀ other : Reg, other ≠ reg →
            (handleTVM env reg.key st).tvm.get other = st.tvm.get other)
        ∧ (handleTVM env reg.key st).displayValue
            = (if isNaN (computed env.math st.tvm reg)
                  || !isFinite (computed env.math st.tvm reg)
                then "Error" else numToString env.host (computed env.math st.tvm reg)))
    ∧ (reg = .IY →
        (handleTVM env reg.key st).tvm = st.tvm
        ∧ (handleTVM env reg.key st).displayValue = st.displayValue
        ∧ (handleTVM env reg.key st).alerts = st.alerts ++ [iyNotice]) := by
  rw [handleTVM_compute _ _ _ hc]
  refine ⟨rfl, rfl, ?_, ?_⟩
  · intro hreg
    obtain ⟨h1, h2⟩ := calculateTVM_reg env st reg hreg
    refine ⟨h1, ?_, h2⟩
    intro other hne
    show (calculateTVM env reg.key st).tvm.get other = _
    cases reg <;> cases other <;>
      first
        | exact absurd rfl hne
        | exact absurd rfl hreg
        | simp [Reg.key, calculateTVM, Tvm.get]
  · intro hreg
    subst hreg
    simp [Reg.key, calculateTVM]

/-- Witness of the amended C9: in compute mode, the key `FV` on the registers
`n = 12, iy = 0, pv = -1200, pmt = 100` clears the flag and stores the computed
result. -/
theorem C9_compute_key_witness :
    (handleTVM ⟨⟨Real.rpow, Real.log, Real.sqrt⟩, refHost⟩ Reg.FV.key
      { (State.init : State ℝ) with
        isComputing := true,
        tvm := ⟨.fin 12, .fin 0, .fin (-1200), .fin 100, .fin 7⟩ }).isComputing = false
    ∧ (handleTVM ⟨⟨Real.rpow, Real.log, Real.sqrt⟩, refHost⟩ Reg.FV.key
      { (State.init : State ℝ) with
        isComputing := true,
        tvm := ⟨.fin 12, .fin 0, .fin (-1200), .fin 100, .fin 7⟩ }).tvm.get Reg.FV
        = computed ⟨Real.rpow, Real.log, Real.sqrt⟩
            (⟨.fin 12, .fin 0, .fin (-1200), .fin 100, .fin 7⟩ : Tvm ℝ) Reg.FV :=
  have w := C9_compute_key ⟨⟨Real.rpow, Real.log, Real.sqrt⟩, refHost⟩
    { (State.init : State ℝ) with
      isComputing := true,
      tvm := ⟨.fin 12, .fin 0, .fin (-1200), .fin 100, .fin 7⟩ } Reg.FV rfl
  ⟨w.1, (w.2.2.1 (by decide)).1⟩

theorem handleTVM_store [LinearOrderedField K] [FloorRing K] (env : Env K) (st : State K)
    (reg : Reg) (hc : st.isComputing = false) :
    handleTVM env reg.key st
      = { st with
          tvm :=
            match reg with
            | .N => { st.tvm with n := env.host.parseFloat st.displayValue }
            | .IY => { st.tvm with iy := env.host.parseFloat st.displayValue }
            | .PV => { st.tvm with pv := env.host.parseFloat st.displayValue }
            | .PMT => { st.tvm with pmt := env.host.parseFloat st.displayValue }
            | .FV => { st.tvm with fv := env.host.parseFloat st.displayValue }
          waitingForSecondOperand := true } := by
  cases reg <;> simp [handleTVM, hc, Reg.key]

/-- C10 (store mode).  For every state with `isComputing` false and every register
key, the key stores `parseFloat(displayValue)` in the named register and sets
`waitingForSecondOperand`; the other four registers, the display, `firstOperand`,
`operator`, `is2ndActive`, `isComputing` and the notices are unchanged. -/
theorem C10_store_key [LinearOrderedField K] [FloorRing K] (env : Env K) (st : State K)
    (reg : Reg) (hc : st.isComputing = false) :
    (handleTVM env reg.key st).tvm.get reg = env.host.parseFloat st.displayValue
    ∧ (handleTVM env reg.key st).waitingForSecondOperand = true
    ∧ (∀ other : Reg, other ≠ reg →
        (handleTVM env reg.key st).tvm.get other = st.tvm.get other)
    ∧ (handleTVM env reg.key st).displayValue = st.displayValue
    ∧ (handleTVM env reg.key st).firstOperand = st.firstOperand
    ∧ (handleTVM env reg.key st).operator = st.operator
    ∧ (handleTVM env reg.key st).is2ndActive = st.is2ndActive
    ∧ (handleTVM env reg.key st).isComputing = st.isComputing
    ∧ (handleTVM env reg.key st).alerts = st.alerts := by
  rw [handleTVM_store env st reg hc]
  refine ⟨?_, rfl, ?_, rfl, rfl, rfl, rfl, rfl, rfl⟩
  · cases reg <;> rfl
  · intro other hne
    cases reg <;> cases other <;>
      first
        | exact absurd rfl hne
        | rfl

/-- Witness of C10 on the reference host: with the display `12`, the key `N` stores
`12` in the `n` register and leaves the `pv` register at its value. -/
theorem C10_store_key_witness :
    (handleTVM ⟨⟨Real.rpow, Real.log, Real.sqrt⟩, refHost⟩ Reg.N.key
      { (State.init : State ℝ) with
        displayValue := "12",
        tvm := ⟨.fin 0, .fin 5, .fin (-1000), .fin 0, .fin 0⟩ }).tvm.get Reg.N
        = .fin 12
    ∧ (handleTVM ⟨⟨Real.rpow, Real.log, Real.sqrt⟩, refHost⟩ Reg.N.key
      { (State.init : State ℝ) with
        displayValue := "12",
        tvm := ⟨.fin 0, .fin 5, .fin (-1000), .fin 0, .fin 0⟩ }).tvm.get Reg.PV
        = .fin (-1000) :=
  have w := C10_store_key ⟨⟨Real.rpow, Real.log, Real.sqrt⟩, refHost⟩
    { (State.init : State ℝ) with
      displayValue := "12",
      tvm := ⟨.fin 0, .fin 5, .fin (-1000), .fin 0, .fin 0⟩ } Reg.N rfl
  ⟨w.1.trans (by
      simp [refHost, parseDecimal, scanDecimal, digitsValue, List.takeWhile, List.dropWhile,
        Char.isDigit, Char.isWhitespace]),
    w.2.2.1 Reg.PV (by decide)⟩

/-- C11 (Clear).  For every state, the key `ON/C` sets the display to `0`, sets
`firstOperand` and `operator` to `null`, and sets `waitingForSecondOperand`,
`is2ndActive` and `isComputing` to false, while each of the five registers keeps
its value. -/
theorem C11_clear (st : State K) :
    (handleControl "ON/C" st).displayValue = "0"
    ∧ (handleControl "ON/C" st).firstOperand = .null
    ∧ (handleControl "ON/C" st).operator = none
    ∧ (handleControl "ON/C" st).waitingForSecondOperand = false
    ∧ (handleControl "ON/C" st).is2ndActive = false
    ∧ (handleControl "ON/C" st).isComputing = false
    ∧ (handleControl "ON/C" st).tvm = st.tvm
    ∧ (∀ reg : Reg, (handleControl "ON/C" st).tvm.get reg = st.tvm.get reg) := by
  simp [handleControl]

/-- C12 (Compute then Clear).  For every state, the key `CPT` sets `isComputing`
and touches no register (nor anything else), and the key `ON/C` pressed next
leaves the five registers as they were before `CPT`, with `isComputing` false. -/
theorem C12_compute_then_clear (st : State K) :
    handleControl "CPT" st = { st with isComputing := true }
    ∧ (handleControl "CPT" st).isComputing = true
    ∧ (handleControl "CPT" st).tvm = st.tvm
    ∧ (handleControl "ON/C" (handleControl "CPT" st)).tvm = st.tvm
    ∧ (∀ reg : Reg,
        (handleControl "ON/C" (handleControl "CPT" st)).tvm.get reg = st.tvm.get reg)
    ∧ (handleControl "ON/C" (handleControl "CPT" st)).isComputing = false := by
  simp [handleControl]

theorem parseDecimal_five : (parseDecimal "5" : JSNum ℝ) = .fin 5 := by
  simp [parseDecimal, scanDecimal, digitsValue, List.takeWhile, List.dropWhile,
    Char.isDigit, Char.isWhitespace]

theorem parseDecimal_zero : (parseDecimal "0" : JSNum ℝ) = .fin 0 := by
  simp [parseDecimal, scanDecimal, digitsValue, List.takeWhile, List.dropWhile,
    Char.isDigit, Char.isWhitespace]

theorem parseDecimal_three : (parseDecimal "3" : JSNum ℝ) = .fin 3 := by
  simp [parseDecimal, scanDecimal, digitsValue, List.takeWhile, List.dropWhile,
    Char.isDigit, Char.isWhitespace]

theorem parseDecimal_error [LinearOrderedField K] :
    (parseDecimal "Error" : JSNum K) = .nan := by
  simp [parseDecimal, scanDecimal, List.takeWhile, List.dropWhile, Char.isDigit,
    Char.isWhitespace]

theorem renderDecimal_three : renderDecimal (3 : ℝ) = "3" := by
  have h : ¬ ((3 : ℝ) < 0) := by norm_num
  simp [renderDecimal, natDigits, digitChar, h]

theorem performCalculation_div_zero [LinearOrderedField K] (h : Host K) (first : JSVal K) :
    performCalculation h "/" first (.fin 0) = .str "Error" := by
  simp [performCalculation]

/-- C13 (division by zero).  For every first operand, `performCalculation` for `/`
with a second operand `0` returns the string `Error`.  Hence, in every state whose
pending operator is `/` and whose display reads as `0`: the key `=` shows `Error`,
and so does an operator key that evaluates the pending division (the state is not
waiting for the second operand and a first operand is recorded), which also stores
`Error` as the first operand. -/
theorem C13_division_by_zero [LinearOrderedField K] (env : Env K) (st : State K)
    (next : String) (hop : st.operator = some "/")
    (hz : env.host.parseFloat st.displayValue = .fin 0) :
    (∀ first : JSVal K, performCalculation env.host "/" first (.fin 0) = .str "Error")
    ∧ (handleEqual env st).displayValue = "Error"
    ∧ (st.waitingForSecondOperand = false → st.firstOperand ≠ .null →
        (handleOperator env next st).displayValue = "Error"
        ∧ (handleOperator env next st).firstOperand = .str "Error") := by
  refine ⟨performCalculation_div_zero env.host, ?_, ?_⟩
  · simp [handleEqual, hop, hz, performCalculation_div_zero, valToString]
  · intro hw hf
    simp [handleOperator, hop, hz, hw, hf, truthy, performCalculation_div_zero, valToString]

/-- Witness of C13 on the reference host: the keys `5 / 0 =` from the initial state
show `Error`. -/
theorem C13_division_by_zero_witness :
    (run ⟨⟨Real.rpow, Real.log, Real.sqrt⟩, refHost⟩
      [("number", "5"), ("operator", "/"), ("number", "0"), ("calculate", "")]
      (State.init : State ℝ)).displayValue = "Error" :=
  (C13_division_by_zero ⟨⟨Real.rpow, Real.log, Real.sqrt⟩, refHost⟩
    (run ⟨⟨Real.rpow, Real.log, Real.sqrt⟩, refHost⟩
      [("number", "5"), ("operator", "/"), ("number", "0")] (State.init : State ℝ))
    "+"
    (by simp [run, click, handleNumber, handleOperator, State.init, truthy])
    (by
      have hd : (run ⟨⟨Real.rpow, Real.log, Real.sqrt⟩, refHost⟩
          [("number", "5"), ("operator", "/"), ("number", "0")]
          (State.init : State ℝ)).displayValue = "0" := by
        simp [run, click, handleNumber, handleOperator, State.init, truthy]
      rw [hd]
      exact parseDecimal_zero)).2.1

theorem JSNum.add_nan [LinearOrderedField K] (a : JSNum K) : a + JSNum.nan = JSNum.nan := by
  cases a <;> rfl

theorem JSNum.sub_nan [LinearOrderedField K] (a : JSNum K) : a - JSNum.nan = JSNum.nan := by
  cases a <;> rfl

theorem JSNum.mul_nan [LinearOrderedField K] (a : JSNum K) : a * JSNum.nan = JSNum.nan := by
  cases a <;> rfl

theorem JSNum.div_nan [LinearOrderedField K] (a : JSNum K) : a / JSNum.nan = JSNum.nan := by
  cases a <;> rfl

theorem performCalculation_nan [LinearOrderedField K] (h : Host K) (op : String)
    (first : JSVal K) (hfirst : ∀ s, first ≠ .str s) :
    performCalculation h op first .nan = .num .nan := by
  unfold performCalculation
  split
  · cases first with
    | str s => exact absurd rfl (hfirst s)
    | null => simp [JSNum.add_nan]
    | num x => simp [JSNum.add_nan]
  · simp [JSNum.sub_nan]
  · simp [JSNum.mul_nan]
  · simp [JSNum.seq, JSNum.div_nan]
  · rfl

/-- C14, counterexample.  On the reference host, from the initial state: the keys
`5 / 0 =` show `Error`, and then `+ 3 =` show `NaN`; the keys `5 / 0 + 3 =` show
`Error3`; with `Error` on the display, the key `CHS` shows `NaN` and so does
`SQRT`.  None of these displays is the error sentinel. -/
theorem C14_counterexample :
    (run ⟨⟨Real.rpow, Real.log, Real.sqrt⟩, refHost⟩
      [("number", "5"), ("operator", "/"), ("number", "0"), ("calculate", "")]
      (State.init : State ℝ)).displayValue = "Error"
    ∧ (run ⟨⟨Real.rpow, Real.log, Real.sqrt⟩, refHost⟩
      [("number", "5"), ("operator", "/"), ("number", "0"), ("calculate", ""),
        ("operator", "+"), ("number", "3"), ("calculate", "")]
      (State.init : State ℝ)).displayValue = "NaN"
    ∧ (run ⟨⟨Real.rpow, Real.log, Real.sqrt⟩, refHost⟩
      [("number", "5"), ("operator", "/"), ("number", "0"),
        ("operator", "+"), ("number", "3"), ("calculate", "")]
      (State.init : State ℝ)).displayValue = "Error3"
    ∧ (run ⟨⟨Real.rpow, Real.log, Real.sqrt⟩, refHost⟩
      [("number", "5"), ("operator", "/"), ("number", "0"), ("calculate", ""),
        ("func", "CHS")]
      (State.init : State ℝ)).displayValue = "NaN"
    ∧ (run ⟨⟨Real.rpow, Real.log, Real.sqrt⟩, refHost⟩
      [("number", "5"), ("operator", "/"), ("number", "0"), ("calculate", ""),
        ("math", "SQRT")]
      (State.init : State ℝ)).displayValue = "NaN"
    ∧ "NaN" ≠ "Error" ∧ "Error3" ≠ "Error" := by
  refine ⟨?_, ?_, ?_, ?_, ?_, by decide, by decide⟩
  · simp [run, click, handleNumber, handleOperator, handleEqual, State.init, truthy, refHost,
      parseDecimal_zero, performCalculation, valToString]
  · simp [run, click, handleNumber, handleOperator, handleEqual, State.init, truthy, refHost,
      parseDecimal_zero, parseDecimal_three, parseDecimal_error, performCalculation,
      valToString, valToNumber, numToString, JSNum.add, HAdd.hAdd, Add.add]
  · simp [run, click, handleNumber, handleOperator, handleEqual, State.init, truthy, refHost,
      parseDecimal_zero, parseDecimal_three, parseDecimal_five, performCalculation,
      valToString, valToNumber, numToString, renderDecimal_three]
  · simp [run, click, handleNumber, handleOperator, handleEqual, handleFunction, State.init,
      truthy, refHost, parseDecimal_zero, parseDecimal_error, performCalculation,
      valToString, numToString, JSNum.mul, HMul.hMul, Mul.mul]
  · simp [run, click, handleNumber, handleOperator, handleEqual, handleMath, State.init,
      truthy, refHost, parseDecimal_zero, parseDecimal_error, performCalculation,
      valToString, numToString, JSNum.lt, Math.sqrt]

/-- C14, amended.  Once the display holds the error sentinel, an operation that
reads it reads `NaN`, never `0` or another number (the platform parses the text
`Error` as `NaN`): the keys `CHS` and `SQRT` show the text `NaN`; an operator key
pressed while no first operand is recorded keeps `Error` on the display (and
records `NaN` as first operand unless it only replaces a pending operator); an
operator key that evaluates a pending operator on a first operand that is a number
shows `NaN` and records `NaN`; the key `=` with a pending operator and a first
operand that is not a string shows `NaN`; a register key in store mode writes `NaN`
to the register and keeps `Error` on the display. -/
theorem C14_error_reads_as_NaN [LinearOrderedField K] [FloorRing K] (env : Env K)
    (st : State K) (hd : st.displayValue = "Error")
    (hparse : env.host.parseFloat "Error" = .nan) :
    (handleFunction env "CHS" st).displayValue = "NaN"
    ∧ (handleMath env "SQRT" st).displayValue = "NaN"
    ∧ (∀ next : String, st.firstOperand = .null →
        (handleOperator env next st).displayValue = "Error"
        ∧ ((handleOperator env next st).firstOperand = .num .nan
            ∨ (handleOperator env next st) = { st with operator := some next }))
    ∧ (∀ (next o : String) (x : JSNum K), st.firstOperand = .num x →
        st.operator = some o → truthy (some o) = true → st.waitingForSecondOperand = false →
        (handleOperator env next st).displayValue = "NaN"
        ∧ (handleOperator env next st).firstOperand = .num .nan)
    ∧ (∀ o : String, st.operator = some o → (∀ s, st.firstOperand ≠ .str s) →
        (handleEqual env st).displayValue = "NaN")
    ∧ (∀ reg : Reg, st.isComputing = false →
        (handleTVM env reg.key st).tvm.get reg = .nan
        ∧ (handleTVM env reg.key st).displayValue = "Error") := by
  refine ⟨?_, ?_, ?_, ?_, ?_, ?_⟩
  · have e : (JSNum.nan : JSNum K) * JSNum.fin (-1) = JSNum.nan := rfl
    simp [handleFunction, hd, hparse, e, numToString]
  · simp [handleMath, hd, hparse, JSNum.lt, Math.sqrt, numToString]
  · intro next hf
    unfold handleOperator
    split
    · exact ⟨hd, Or.inr rfl⟩
    · simp [hf, hd, hparse]
  · intro next o x hf ho ht hw
    have hx : ∀ s, (JSVal.num x : JSVal K) ≠ .str s := by intro s; simp
    simp [handleOperator, hf, ho, ht, hw, hd, hparse, performCalculation_nan _ _ _ hx,
      valToString, numToString]
  · intro o ho hs
    simp [handleEqual, ho, hd, hparse, performCalculation_nan _ _ _ hs, valToString,
      numToString]
  · intro reg hc
    rw [handleTVM_store env st reg hc]
    refine ⟨?_, hd⟩
    rw [hd, hparse]
    cases reg <;> rfl

/-- Witness of the amended C14 on the reference host: after the keys `5 / 0 =` the
display is `Error`, and then the keys `+ 3 =` show `NaN`; the key `CHS` shows `NaN`
too. -/
theorem C14_error_reads_as_NaN_witness :
    (run ⟨⟨Real.rpow, Real.log, Real.sqrt⟩, refHost⟩
      [("number", "5"), ("operator", "/"), ("number", "0"), ("calculate", ""),
        ("func", "CHS")]
      (State.init : State ℝ)).displayValue = "NaN"
    ∧ (run ⟨⟨Real.rpow, Real.log, Real.sqrt⟩, refHost⟩
      [("operator", "+"), ("number", "3"), ("calculate", "")]
      (run ⟨⟨Real.rpow, Real.log, Real.sqrt⟩, refHost⟩
        [("number", "5"), ("operator", "/"), ("number", "0"), ("calculate", "")]
        (State.init : State ℝ))).displayValue = "NaN" := by
  have hd : (run ⟨⟨Real.rpow, Real.log, Real.sqrt⟩, refHost⟩
      [("number", "5"), ("operator", "/"), ("number", "0"), ("calculate", "")]
      (State.init : State ℝ)).displayValue = "Error" := by
    simp [run, click, handleNumber, handleOperator, handleEqual, State.init, truthy, refHost,
      parseDecimal_zero, performCalculation, valToString]
  constructor
  · exact (C14_error_reads_as_NaN ⟨⟨Real.rpow, Real.log, Real.sqrt⟩, refHost⟩ _ hd
      parseDecimal_error).1
  · simp [run, click, handleNumber, handleOperator, handleEqual, State.init, truthy, refHost,
      parseDecimal_zero, parseDecimal_three, parseDecimal_error, performCalculation,
      valToString, valToNumber, numToString, JSNum.add, HAdd.hAdd, Add.add]

theorem parseDecimal_nine : (parseDecimal "9" : JSNum ℝ) = .fin 9 := by
  simp [parseDecimal, scanDecimal, digitsValue, List.takeWhile, List.dropWhile,
    Char.isDigit, Char.isWhitespace]

theorem parseDecimal_minus_four : (parseDecimal "-4" : JSNum ℝ) = .fin (-4) := by
  simp [parseDecimal, scanDecimal, digitsValue, List.takeWhile, List.dropWhile,
    Char.isDigit, Char.isWhitespace]

theorem sqrt_nine : Real.sqrt 9 = 3 := by
  rw [show (9 : ℝ) = 3 ^ 2 by norm_num]
  exact Real.sqrt_sq (by norm_num)

/-- C15 (SquareRoot).  For every state whose display reads as the finite number
`x`, the key `SQRT` shows `Error` if `x < 0` and the rendering of the real square
root of `x` otherwise; in both cases it sets `waitingForSecondOperand` and leaves
the registers, `firstOperand`, `operator` and the other flags unchanged.  For
`x = -4` the display is `Error`; for `x = 9` it is the rendering of `3`. -/
theorem C15_square_root (h : Host ℝ) (st : State ℝ) (x : ℝ)
    (hx : h.parseFloat st.displayValue = .fin x) :
    (x < 0 →
      (handleMath ⟨⟨Real.rpow, Real.log, Real.sqrt⟩, h⟩ "SQRT" st).displayValue = "Error")
    ∧ (0 ≤ x →
      (handleMath ⟨⟨Real.rpow, Real.log, Real.sqrt⟩, h⟩ "SQRT" st).displayValue
        = h.render (Real.sqrt x))
    ∧ (x = -4 →
      (handleMath ⟨⟨Real.rpow, Real.log, Real.sqrt⟩, h⟩ "SQRT" st).displayValue = "Error")
    ∧ (x = 9 →
      (handleMath ⟨⟨Real.rpow, Real.log, Real.sqrt⟩, h⟩ "SQRT" st).displayValue
        = h.render 3)
    ∧ (handleMath ⟨⟨Real.rpow, Real.log, Real.sqrt⟩, h⟩ "SQRT" st).waitingForSecondOperand
        = true
    ∧ (handleMath ⟨⟨Real.rpow, Real.log, Real.sqrt⟩, h⟩ "SQRT" st).tvm = st.tvm
    ∧ (handleMath ⟨⟨Real.rpow, Real.log, Real.sqrt⟩, h⟩ "SQRT" st).firstOperand
        = st.firstOperand
    ∧ (handleMath ⟨⟨Real.rpow, Real.log, Real.sqrt⟩, h⟩ "SQRT" st).operator = st.operator
    ∧ (handleMath ⟨⟨Real.rpow, Real.log, Real.sqrt⟩, h⟩ "SQRT" st).is2ndActive
        = st.is2ndActive
    ∧ (handleMath ⟨⟨Real.rpow, Real.log, Real.sqrt⟩, h⟩ "SQRT" st).isComputing
        = st.isComputing := by
  have hneg : x < 0 →
      (handleMath ⟨⟨Real.rpow, Real.log, Real.sqrt⟩, h⟩ "SQRT" st).displayValue = "Error" := by
    intro hlt
    simp [handleMath, hx, JSNum.lt, hlt]
  have hpos : 0 ≤ x →
      (handleMath ⟨⟨Real.rpow, Real.log, Real.sqrt⟩, h⟩ "SQRT" st).displayValue
        = h.render (Real.sqrt x) := by
    intro hle
    simp [handleMath, hx, JSNum.lt, not_lt.mpr hle, Math.sqrt, numToString]
  refine ⟨hneg, hpos, ?_, ?_, ?_, ?_, ?_, ?_, ?_, ?_⟩
  · intro e
    exact hneg (by rw [e]; norm_num)
  · intro e
    rw [hpos (by rw [e]; norm_num), e, sqrt_nine]
  all_goals simp [handleMath]

/-- Witness of C15 on the reference host: with `-4` on the display the key `SQRT`
shows `Error`; with `9` it shows `3`. -/
theorem C15_square_root_witness :
    (handleMath ⟨⟨Real.rpow, Real.log, Real.sqrt⟩, refHost⟩ "SQRT"
      { (State.init : State ℝ) with displayValue := "-4" }).displayValue = "Error"
    ∧ (handleMath ⟨⟨Real.rpow, Real.log, Real.sqrt⟩, refHost⟩ "SQRT"
      { (State.init : State ℝ) with displayValue := "9" }).displayValue = "3" :=
  ⟨(C15_square_root refHost { (State.init : State ℝ) with displayValue := "-4" } (-4)
      parseDecimal_minus_four).2.2.1 rfl,
    ((C15_square_root refHost { (State.init : State ℝ) with displayValue := "9" } 9
      parseDecimal_nine).2.2.2.1 rfl).trans renderDecimal_three⟩

theorem truthy_of_symbol (o : String) (h : isOperatorSymbol o = true) :
    truthy (some o) = true := by
  simp only [isOperatorSymbol, Bool.or_eq_true, decide_eq_true_eq] at h
  rcases h with ((h | h) | h) | h <;> subst h <;> decide

theorem calculateTVM_frame [LinearOrderedField K] [FloorRing K] (env : Env K) (key : String)
    (st : State K) :
    (calculateTVM env key st).firstOperand = st.firstOperand
    ∧ (calculateTVM env key st).operator = st.operator
    ∧ (calculateTVM env key st).waitingForSecondOperand = st.waitingForSecondOperand
    ∧ (calculateTVM env key st).is2ndActive = st.is2ndActive
    ∧ (calculateTVM env key st).isComputing = st.isComputing := by
  unfold calculateTVM
  split <;> simp only [showResult] <;> try split
  all_goals simp

theorem handleTVM_pending [LinearOrderedField K] [FloorRing K] (env : Env K) (key : String)
    (st : State K) :
    (handleTVM env key st).firstOperand = st.firstOperand
    ∧ (handleTVM env key st).operator = st.operator := by
  obtain ⟨h1, h2, _⟩ := calculateTVM_frame env key st
  unfold handleTVM
  split
  · exact ⟨h1, h2⟩
  · exact ⟨rfl, rfl⟩

theorem handleNumber_pending (numStr : String) (st : State K) :
    (handleNumber numStr st).firstOperand = st.firstOperand
    ∧ (handleNumber numStr st).operator = st.operator := by
  cases hc : st.isComputing <;> cases hw : st.waitingForSecondOperand <;>
    simp [handleNumber, hc, hw]

theorem handleControl_inv (action : String) (st : State K) (h : PendingInv st) :
    PendingInv (handleControl action st) := by
  unfold handleControl
  split
  · exact ⟨by simp, by simp⟩
  all_goals exact h

theorem handleEqual_inv [LinearOrderedField K] (env : Env K) (st : State K)
    (h : PendingInv st) : PendingInv (handleEqual env st) := by
  unfold handleEqual
  split
  · exact h
  · exact ⟨by simp, by simp⟩

theorem performCalculation_ne_null [LinearOrderedField K] (h : Host K) (op : String)
    (first : JSVal K) (second : JSNum K) :
    performCalculation h op first second ≠ .null := by
  unfold performCalculation
  split
  · split <;> simp
  · simp
  · simp
  · split <;> simp
  · simp

theorem handleOperator_inv [LinearOrderedField K] (env : Env K) (next : String)
    (st : State K) (hnext : isOperatorSymbol next = true) (hinv : PendingInv st) :
    PendingInv (handleOperator env next st) := by
  unfold handleOperator
  split
  · rename_i hc
    refine ⟨?_, ?_⟩
    · have hne : st.firstOperand ≠ .null := by
        intro e
        have := hinv.1.mp e
        simp [this, truthy] at hc
      simp [hne]
    · intro o ho
      simp only [Option.some.injEq] at ho
      rw [← ho]; exact hnext
  · refine ⟨?_, ?_⟩
    · simp only [reduceCtorEq, iff_false]
      split
      · simp
      · rename_i hne
        split
        · split
          · exact performCalculation_ne_null _ _ _ _
          · exact hne
        · exact hne
    · intro o ho
      simp only [Option.some.injEq] at ho
      rw [← ho]; exact hnext

theorem click_inv [LinearOrderedField K] [FloorRing K] (env : Env K) (type value : String)
    (st : State K) (hv : type = "operator" → isOperatorSymbol value = true)
    (h : PendingInv st) : PendingInv (click env type value st) := by
  unfold click
  split
  · obtain ⟨h1, h2⟩ := handleNumber_pending value st
    unfold PendingInv; rw [h1, h2]; exact h
  · exact handleOperator_inv env value st (hv rfl) h
  · exact handleEqual_inv env st h
  · exact handleControl_inv value st h
  · obtain ⟨h1, h2⟩ := handleTVM_pending env value st
    unfold PendingInv; rw [h1, h2]; exact h
  · unfold handleFunction
    split <;> exact h
  · unfold handleMath
    split <;> exact h
  · exact h

theorem reachable_inv [LinearOrderedField K] [FloorRing K] (env : Env K) (st : State K)
    (hr : Reachable env st) : PendingInv st := by
  induction hr with
  | init => exact ⟨by simp [State.init], by simp [State.init]⟩
  | step type value _ hv ih => exact click_inv env type value _ hv ih

/-- C16 (Operator transition).  For every reachable state and every operator key
value `op` (in particular `+`, `-`, `*`, `/`), with
`x = parseFloat(displayValue)`: (i) when an operator is pending and
`waitingForSecondOperand` is true, the key only replaces the pending operator
(the display, `firstOperand` and everything else unchanged); (ii) otherwise, when
`firstOperand` is `null`, it sets `firstOperand` to `x`; (iii) otherwise an
operator `o` is pending, and it evaluates `o` on `(firstOperand, x)` and stores the
result as both the display (its text) and `firstOperand`; in cases (ii) and (iii)
it ends with `waitingForSecondOperand` true and `operator = op`. -/
theorem C16_operator_transition [LinearOrderedField K] [FloorRing K] (env : Env K)
    (st : State K) (op : String) (hr : Reachable env st) :
    (st.operator ≠ none → st.waitingForSecondOperand = true →
      handleOperator env op st = { st with operator := some op })
    ∧ (¬ (st.operator ≠ none ∧ st.waitingForSecondOperand = true) →
        st.firstOperand = .null →
        handleOperator env op st
          = { st with
              firstOperand := .num (env.host.parseFloat st.displayValue)
              waitingForSecondOperand := true
              operator := some op })
    ∧ (¬ (st.operator ≠ none ∧ st.waitingForSecondOperand = true) →
        st.firstOperand ≠ .null →
        ∃ o : String, st.operator = some o
          ∧ handleOperator env op st
            = { st with
                displayValue := valToString env.host
                  (performCalculation env.host o st.firstOperand
                    (env.host.parseFloat st.displayValue))
                firstOperand := performCalculation env.host o st.firstOperand
                  (env.host.parseFloat st.displayValue)
                waitingForSecondOperand := true
                operator := some op }) := by
  have hinv := reachable_inv env st hr
  have htr : st.operator ≠ none → truthy st.operator = true := by
    intro hne
    cases ho : st.operator with
    | none => exact absurd ho hne
    | some o => exact truthy_of_symbol o (hinv.2 o ho)
  refine ⟨?_, ?_, ?_⟩
  · intro hne hw
    simp [handleOperator, htr hne, hw]
  · intro hnot hf
    have hnone : st.operator = none := hinv.1.mp hf
    simp [handleOperator, hnone, hf, truthy]
  · intro hnot hf
    have hne : st.operator ≠ none := fun e => hf (hinv.1.mpr e)
    cases ho : st.operator with
    | none => exact absurd ho hne
    | some o =>
      have ht : truthy (some o) = true := truthy_of_symbol o (hinv.2 o ho)
      have hw : st.waitingForSecondOperand = false := by
        cases hw : st.waitingForSecondOperand with
        | false => rfl
        | true => exact absurd ⟨hne, hw⟩ hnot
      refine ⟨o, rfl, ?_⟩
      simp [handleOperator, ho, ht, hw, hf]

/-- Witness of C16 on the reference host: after the keys `5 +` (a reachable state)
the key `*` only replaces the pending operator. -/
theorem C16_operator_transition_witness :
    handleOperator ⟨⟨Real.rpow, Real.log, Real.sqrt⟩, refHost⟩ "*"
      (click ⟨⟨Real.rpow, Real.log, Real.sqrt⟩, refHost⟩ "operator" "+"
        (click ⟨⟨Real.rpow, Real.log, Real.sqrt⟩, refHost⟩ "number" "5"
          (State.init : State ℝ)))
      = { click ⟨⟨Real.rpow, Real.log, Real.sqrt⟩, refHost⟩ "operator" "+"
            (click ⟨⟨Real.rpow, Real.log, Real.sqrt⟩, refHost⟩ "number" "5"
              (State.init : State ℝ)) with operator := some "*" } :=
  (C16_operator_transition ⟨⟨Real.rpow, Real.log, Real.sqrt⟩, refHost⟩ _ "*"
    (Reachable.step "operator" "+"
      (Reachable.step "number" "5" Reachable.init (by decide)) (by decide))).1
    (by simp [click, handleNumber, handleOperator, State.init, truthy])
    (by simp [click, handleNumber, handleOperator, State.init, truthy])

theorem showResult_eq (h : Host K) (r : JSNum K) (st : State K) :
    showResult h r st
      = { st with
          displayValue :=
            if isNaN r || !isFinite r then "Error" else numToString h r } := by
  unfold showResult
  split <;> simp_all

theorem calculateTVM_again [LinearOrderedField K] [FloorRing K] (env : Env K) (reg : Reg)
    (st : State K) (c w : Bool) :
    (calculateTVM env reg.key
        { calculateTVM env reg.key st with
          isComputing := c, waitingForSecondOperand := w }).tvm
      = (calculateTVM env reg.key st).tvm
    ∧ (calculateTVM env reg.key
        { calculateTVM env reg.key st with
          isComputing := c, waitingForSecondOperand := w }).displayValue
      = (calculateTVM env reg.key st).displayValue := by
  cases reg <;> simp only [Reg.key, calculateTVM, showResult_eq] <;>
    first
      | exact ⟨rfl, rfl⟩
      | simp

/-- C17 (solver idempotence).  For every state and every register key, the keys
`CPT`, key, `CPT`, key leave the same five registers and the same display as the
keys `CPT`, key alone: a solve does not read the register it writes (and for `IY`
nothing is written at all). -/
theorem C17_solve_twice [LinearOrderedField K] [FloorRing K] (env : Env K) (st : State K)
    (reg : Reg) :
    (handleTVM env reg.key (handleControl "CPT"
        (handleTVM env reg.key (handleControl "CPT" st)))).tvm
      = (handleTVM env reg.key (handleControl "CPT" st)).tvm
    ∧ (handleTVM env reg.key (handleControl "CPT"
        (handleTVM env reg.key (handleControl "CPT" st)))).displayValue
      = (handleTVM env reg.key (handleControl "CPT" st)).displayValue := by
  have h1 : handleTVM env reg.key (handleControl "CPT" st)
      = { calculateTVM env reg.key { st with isComputing := true } with
          isComputing := false, waitingForSecondOperand := true } := by
    rw [handleControl_CPT, handleTVM_compute _ _ _ rfl]
  rw [h1, handleControl_CPT, handleTVM_compute _ _ _ rfl]
  exact calculateTVM_again env reg { st with isComputing := true } true true

/-- C18 (solver frame).  For every state and every target register,
`calculateTVM` leaves `firstOperand`, `operator`, `waitingForSecondOperand`,
`is2ndActive` and `isComputing` as they were, and every register other than the
target keeps its value. -/
theorem C18_solver_frame [LinearOrderedField K] [FloorRing K] (env : Env K) (st : State K)
    (reg : Reg) :
    (calculateTVM env reg.key st).firstOperand = st.firstOperand
    ∧ (calculateTVM env reg.key st).operator = st.operator
    ∧ (calculateTVM env reg.key st).waitingForSecondOperand = st.waitingForSecondOperand
    ∧ (calculateTVM env reg.key st).is2ndActive = st.is2ndActive
    ∧ (calculateTVM env reg.key st).isComputing = st.isComputing
    ∧ (∀ other : Reg, other ≠ reg →
        (calculateTVM env reg.key st).tvm.get other = st.tvm.get other) := by
  obtain ⟨h1, h2, h3, h4, h5⟩ := calculateTVM_frame env reg.key st
  refine ⟨h1, h2, h3, h4, h5, ?_⟩
  intro other hne
  cases reg <;> cases other <;>
    first
      | exact absurd rfl hne
      | simp [Reg.key, calculateTVM, Tvm.get]

/-- Witness of C18 on the reference host: solving `FV` leaves the `pv` register at
`-1200`. -/
theorem C18_solver_frame_witness :
    (calculateTVM ⟨⟨Real.rpow, Real.log, Real.sqrt⟩, refHost⟩ Reg.FV.key
      { (State.init : State ℝ) with
        tvm := ⟨.fin 12, .fin 0, .fin (-1200), .fin 100, .fin 7⟩ }).tvm.get Reg.PV
      = .fin (-1200) :=
  (C18_solver_frame ⟨⟨Real.rpow, Real.log, Real.sqrt⟩, refHost⟩
    { (State.init : State ℝ) with
      tvm := ⟨.fin 12, .fin 0, .fin (-1200), .fin 100, .fin 7⟩ }
    Reg.FV).2.2.2.2.2 Reg.PV (by decide)

theorem rpow_neg_log_div {b q : ℝ} (hb : 0 < b) (hb1 : b ≠ 1) (hq : 0 < q) :
    b ^ (-(Real.log q / Real.log b)) = q⁻¹ := by
  have hlog : Real.log b ≠ 0 := Real.log_ne_zero_of_pos_of_ne_one hb hb1
  rw [Real.rpow_def_of_pos hb]
  have e : Real.log b * -(Real.log q / Real.log b) = -Real.log q := by
    field_simp
    ring
  rw [e, Real.exp_neg, Real.exp_log hq]

/-- C19 (base TVM identity).  Let the `iy` register hold a finite `iy ≠ 0` with
`1 + iy/100 > 0`, and let the registers the solve reads be finite; the target
register may hold anything.  Under real arithmetic, after solving `FV`, after
solving `PV`, after solving `PMT` when `n ≠ 0`, and after solving `N` when the ratio
`(pmt - fv*r)/(pmt + pv*r)` is positive, the register set is the one before the
solve with the stated finite result in the target register, and these five values
satisfy `PV + PMT * ((1 - (1+r)^(-n)) / r) + FV * (1+r)^(-n) = 0` with
`r = iy/100`. -/
theorem C19_base_identity (h : Host ℝ) (st : State ℝ) (n iy pv pmt fv : ℝ)
    (hiy : st.tvm.iy = .fin iy) (hr : iy ≠ 0) (hb : 0 < 1 + iy / 100) :
    (st.tvm.n = .fin n → st.tvm.pv = .fin pv → st.tvm.pmt = .fin pmt →
      (calculateTVM ⟨⟨Real.rpow, Real.log, Real.sqrt⟩, h⟩ "FV" st).tvm
          = ⟨.fin n, .fin iy, .fin pv, .fin pmt,
              .fin (-(pv * (1 + iy / 100) ^ n
                + pmt * ((1 + iy / 100) ^ n - 1) / (iy / 100)))⟩
      ∧ baseFormula n iy pv pmt
          (-(pv * (1 + iy / 100) ^ n + pmt * ((1 + iy / 100) ^ n - 1) / (iy / 100))))
    ∧ (st.tvm.n = .fin n → st.tvm.pmt = .fin pmt → st.tvm.fv = .fin fv →
      (calculateTVM ⟨⟨Real.rpow, Real.log, Real.sqrt⟩, h⟩ "PV" st).tvm
          = ⟨.fin n, .fin iy,
              .fin (-(fv * (1 + iy / 100) ^ (-n)
                + pmt * ((1 - (1 + iy / 100) ^ (-n)) / (iy / 100)))),
              .fin pmt, .fin fv⟩
      ∧ baseFormula n iy
          (-(fv * (1 + iy / 100) ^ (-n)
            + pmt * ((1 - (1 + iy / 100) ^ (-n)) / (iy / 100))))
          pmt fv)
    ∧ (st.tvm.n = .fin n → st.tvm.pv = .fin pv → st.tvm.fv = .fin fv → n ≠ 0 →
      (calculateTVM ⟨⟨Real.rpow, Real.log, Real.sqrt⟩, h⟩ "PMT" st).tvm
          = ⟨.fin n, .fin iy, .fin pv,
              .fin ((-pv - fv * (1 + iy / 100) ^ (-n))
                / ((1 - (1 + iy / 100) ^ (-n)) / (iy / 100))),
              .fin fv⟩
      ∧ baseFormula n iy pv
          ((-pv - fv * (1 + iy / 100) ^ (-n))
            / ((1 - (1 + iy / 100) ^ (-n)) / (iy / 100)))
          fv)
    ∧ (st.tvm.pv = .fin pv → st.tvm.pmt = .fin pmt → st.tvm.fv = .fin fv →
        0 < (pmt - fv * (iy / 100)) / (pmt + pv * (iy / 100)) →
      (calculateTVM ⟨⟨Real.rpow, Real.log, Real.sqrt⟩, h⟩ "N" st).tvm
          = ⟨.fin (Real.log ((pmt - fv * (iy / 100)) / (pmt + pv * (iy / 100)))
                / Real.log (1 + iy / 100)),
              .fin iy, .fin pv, .fin pmt, .fin fv⟩
      ∧ baseFormula
          (Real.log ((pmt - fv * (iy / 100)) / (pmt + pv * (iy / 100)))
            / Real.log (1 + iy / 100))
          iy pv pmt fv) := by
  have hr2 : iy / 100 ≠ 0 := by positivity
  have hb1 : 1 + iy / 100 ≠ 1 := by
    intro e; apply hr2; linarith
  refine ⟨?_, ?_, ?_, ?_⟩
  · intro hn hpv hpmt
    refine ⟨?_, hr2, ?_⟩
    · rw [calculateTVM_FV_tvm]
      show ({ st.tvm with fv := resultFV ⟨Real.rpow, Real.log, Real.sqrt⟩ st.tvm } : Tvm ℝ)
        = _
      rw [resultFV_real st.tvm n iy pv pmt hn hiy hpv hpmt hr hb, ← hn, ← hiy, ← hpv, ← hpmt]
    · have hT : 0 < (1 + iy / 100) ^ n := Real.rpow_pos_of_pos hb n
      rw [Real.rpow_neg hb.le]
      generalize (1 + iy / 100) ^ n = T at hT
      generalize iy / 100 = r at hr2
      have hT0 : T ≠ 0 := hT.ne'
      field_simp
      ring
  · intro hn hpmt hfv
    refine ⟨?_, hr2, ?_⟩
    · rw [calculateTVM_PV_tvm]
      show ({ st.tvm with pv := resultPV ⟨Real.rpow, Real.log, Real.sqrt⟩ st.tvm } : Tvm ℝ)
        = _
      rw [resultPV_real st.tvm n iy fv pmt hn hiy hfv hpmt hr hb, ← hn, ← hiy, ← hpmt, ← hfv]
    · ring
  · intro hn hpv hfv hn0
    refine ⟨?_, hr2, ?_⟩
    · rw [calculateTVM_PMT_tvm]
      show ({ st.tvm with pmt := resultPMT ⟨Real.rpow, Real.log, Real.sqrt⟩ st.tvm } : Tvm ℝ)
        = _
      rw [resultPMT_real st.tvm n iy pv fv hn hiy hpv hfv hr hb hn0, ← hn, ← hiy, ← hpv,
        ← hfv]
    · have hT : (1 + iy / 100) ^ (-n) ≠ 1 := rpow_ne_one hb hb1 (neg_ne_zero.mpr hn0)
      have haf : (1 - (1 + iy / 100) ^ (-n)) / (iy / 100) ≠ 0 :=
        div_ne_zero (sub_ne_zero.mpr (Ne.symm hT)) hr2
      rw [div_mul_cancel₀ _ haf]
      ring
  · intro hpv hpmt hfv hpos
    refine ⟨?_, hr2, ?_⟩
    · rw [calculateTVM_N_tvm]
      show ({ st.tvm with n := resultN ⟨Real.rpow, Real.log, Real.sqrt⟩ st.tvm } : Tvm ℝ)
        = _
      rw [resultN_real st.tvm iy pv pmt fv hiy hpv hpmt hfv hr hb hpos, ← hiy, ← hpv,
        ← hpmt, ← hfv]
    · rw [rpow_neg_log_div hb hb1 hpos]
      have hden : pmt + pv * (iy / 100) ≠ 0 := by
        intro e; rw [e, div_zero] at hpos; exact lt_irrefl _ hpos
      have hnum : pmt - fv * (iy / 100) ≠ 0 := by
        intro e; rw [e, zero_div] at hpos; exact lt_irrefl _ hpos
      generalize iy / 100 = r at hr2 hden hnum
      rw [inv_div]
      field_simp
      ring

/-- Witness of C19 at `n = 10, iy = 5, pv = -1000, pmt = 0`, the `fv` register
holding `NaN` from an earlier failed solve: after solving `FV` the registers are
`10, 5, -1000, 0` and `1000 * 1.05^10`, and they satisfy the base formula. -/
theorem C19_base_identity_witness :
    (calculateTVM ⟨⟨Real.rpow, Real.log, Real.sqrt⟩, refHost⟩ "FV"
      { (State.init : State ℝ) with
        tvm := ⟨.fin 10, .fin 5, .fin (-1000), .fin 0, .nan⟩ }).tvm
        = ⟨.fin 10, .fin 5, .fin (-1000), .fin 0,
            .fin (-(-1000 * (1 + 5 / 100) ^ (10 : ℝ)
              + 0 * ((1 + 5 / 100) ^ (10 : ℝ) - 1) / (5 / 100)))⟩
    ∧ baseFormula 10 5 (-1000) 0
        (-(-1000 * (1 + 5 / 100) ^ (10 : ℝ)
          + 0 * ((1 + 5 / 100) ^ (10 : ℝ) - 1) / (5 / 100))) :=
  (C19_base_identity refHost
    { (State.init : State ℝ) with
      tvm := ⟨.fin 10, .fin 5, .fin (-1000), .fin 0, .nan⟩ }
    10 5 (-1000) 0 0 rfl (by norm_num) (by norm_num)).1 rfl rfl rfl

/-- C20 (pending-arithmetic invariant).  In every state reachable from the initial
state by clicks, `firstOperand` is `null` if and only if `operator` is `null`, and
a pending operator is truthy; hence the case of `handleOperator` where a first
operand is recorded while no operator is pending (so that nothing is evaluated or
stored) does not occur. -/
theorem C20_pending_invariant [LinearOrderedField K] [FloorRing K] (env : Env K)
    (st : State K) (hr : Reachable env st) :
    (st.firstOperand = .null ↔ st.operator = none)
    ∧ (∀ o : String, st.operator = some o → truthy (some o) = true)
    ∧ ¬ (st.firstOperand ≠ .null ∧ truthy st.operator = false) := by
  have hinv := reachable_inv env st hr
  refine ⟨hinv.1, fun o ho => truthy_of_symbol o (hinv.2 o ho), ?_⟩
  rintro ⟨hf, ht⟩
  cases ho : st.operator with
  | none => exact hf (hinv.1.mpr ho)
  | some o =>
    rw [ho, truthy_of_symbol o (hinv.2 o ho)] at ht
    exact Bool.noConfusion ht

/-- Witness of C20 on the reference host: after the keys `5 + 3` both
`firstOperand` and `operator` are set. -/
theorem C20_pending_invariant_witness :
    ((run ⟨⟨Real.rpow, Real.log, Real.sqrt⟩, refHost⟩
        [("number", "5"), ("operator", "+"), ("number", "3")]
        (State.init : State ℝ)).firstOperand = .null
      ↔ (run ⟨⟨Real.rpow, Real.log, Real.sqrt⟩, refHost⟩
        [("number", "5"), ("operator", "+"), ("number", "3")]
        (State.init : State ℝ)).operator = none)
    ∧ (run ⟨⟨Real.rpow, Real.log, Real.sqrt⟩, refHost⟩
        [("number", "5"), ("operator", "+"), ("number", "3")]
        (State.init : State ℝ)).operator = some "+" :=
  ⟨(C20_pending_invariant ⟨⟨Real.rpow, Real.log, Real.sqrt⟩, refHost⟩ _
      (Reachable.step "number" "3"
        (Reachable.step "operator" "+"
          (Reachable.step "number" "5" Reachable.init (by decide)) (by decide))
        (by decide))).1,
    by simp [run, click, handleNumber, handleOperator, State.init, truthy]⟩

end Calc
